import Mathlib

/-!
# Mini-Linux paging core (`07_Paging/src/mm/paging/paging.c`)

A shallow embedding of the frame allocator, the page-entry allocation
routines, the page-directory walk `get_page`, the page-fault report, the
set-up and the mapping loops of `init_paging`, `switch_page_directory`, and
`register_interrupt_handler` of `day-6/interrupt/interrupt.c`, followed by
the properties established about them.

Conventions of the embedding

* `u32int` values are natural numbers; where the C arithmetic can wrap the
  reduction `% 2 ^ 32` is written out, and `s32int` values are integers
  obtained through `toS32`.
* The frame bitset `frames` is the array of 32-bit words behind the global
  pointer, read as a function from word index to word.
* Page entries live in a store indexed by their address, so that a
  `page_t *` is an address and `page->field` is a read of that store.
-/

namespace Paging

/-! ## Machine integers -/

/-- Conversion of an unsigned 32-bit value to `s32int` (two's complement). -/
def toS32 (x : Nat) : Int :=
  if x % 2 ^ 32 < 2 ^ 31 then ((x % 2 ^ 32 : Nat) : Int) else ((x % 2 ^ 32 : Nat) : Int) - 2 ^ 32

/-- Conversion of an `s32int` value to `u32int`. -/
def toU32 (x : Int) : Nat := (x % 2 ^ 32).toNat

/-! ## The frame bitset -/

/-- Macro `INDEX_FROM_BIT(a)`. -/
def INDEX_FROM_BIT (a : Nat) : Nat := a / 32

/-- Macro `OFFSET_FROM_BIT(a)`. -/
def OFFSET_FROM_BIT (a : Nat) : Nat := a % 32

/-- Function `set_frame(frameAddr)`: `frames[idx] |= (0x1 << off)`. -/
def set_frame (frames : Nat → Nat) (frameAddr : Nat) : Nat → Nat :=
  let frame := frameAddr / 0x1000
  let idx := INDEX_FROM_BIT frame
  let off := OFFSET_FROM_BIT frame
  Function.update frames idx (frames idx ||| (0x1 <<< off))

/-- Function `clear_frame(frameAddr)`: `frames[idx] &= ~(0x1 << off)`, the
complement being taken in 32 bits. -/
def clear_frame (frames : Nat → Nat) (frameAddr : Nat) : Nat → Nat :=
  let frame := frameAddr / 0x1000
  let idx := INDEX_FROM_BIT frame
  let off := OFFSET_FROM_BIT frame
  Function.update frames idx (frames idx &&& (0xFFFFFFFF - (0x1 <<< off)))

/-- Inner loop of `first_frame`: `for (j = ...; j < 32; ++j)` over one word,
with `n` iterations left; yields the first `j` with `!(word & (0x1 << j))`. -/
def first_frame_bits (word : Nat) : Nat → Nat → Option Nat
  | _, 0 => none
  | j, n + 1 =>
    if word &&& (0x1 <<< j) = 0 then some j else first_frame_bits word (j + 1) n

/-- Outer loop of `first_frame`: `for (i = ...; i < INDEX_FROM_BIT(nframes); ++i)`
with `n` iterations left. The value returned is the `u32int` expression
`(i * 32) + j` converted to the `s32int` return type; `-1` when the loop
runs out. -/
def first_frame_words (frames : Nat → Nat) : Nat → Nat → Int
  | _, 0 => -1
  | i, n + 1 =>
    if frames i ≠ 0xFFFFFFFF then
      match first_frame_bits (frames i) 0 32 with
      | some j => toS32 (((i * 32) + j) % 2 ^ 32)
      | none => first_frame_words frames (i + 1) n
    else first_frame_words frames (i + 1) n

/-- Function `first_frame()`, reading the globals `frames` and `nframes`. -/
def first_frame (frames : Nat → Nat) (nframes : Nat) : Int :=
  first_frame_words frames 0 (INDEX_FROM_BIT nframes)

/-! ## Page entries and the kernel state -/

/-- Modelled from the spec: the `page_t` declaration of `paging.h`, which is
not among the sources. One 32-bit word of bit-fields: present, writable,
user-accessible, accessed, dirty, unused bits and a 20-bit frame number. -/
structure page_t where
  present : Nat
  rw : Nat
  user : Nat
  accessed : Nat
  dirty : Nat
  unused : Nat
  frame : Nat
deriving DecidableEq

/-- A page entry all of whose bytes are zero. -/
def zero_page : page_t :=
  { present := 0, rw := 0, user := 0, accessed := 0, dirty := 0, unused := 0, frame := 0 }

/-- The globals of `paging.c` together with the memory holding page entries
(indexed by the address of the entry) and the two output sinks, each the
sequence of strings written to it so far. -/
structure KernelState where
  frames : Nat → Nat
  nframes : Nat
  pages : Nat → page_t
  screen : List String
  serial : List String

/-- How a call ends: it returns, or it never returns because it spins in
`while (1) {}`; either way with the state reached. -/
inductive Outcome (σ : Type) where
  | returned (s : σ) : Outcome σ
  | halted (s : σ) : Outcome σ

/-- Function `print_screen(buffer)` of `logger.c`: one write to the screen. -/
def print_screen (s : KernelState) (buffer : String) : KernelState :=
  { s with screen := s.screen ++ [buffer] }

/-- Function `print_serial(buffer)` of `logger.c`: one write to the serial port. -/
def print_serial (s : KernelState) (buffer : String) : KernelState :=
  { s with serial := s.serial ++ [buffer] }

/-- Function `alloc_frame_identity(page, isKernel, isWriteable)`. The store to
the 20-bit field `page->frame` keeps the low 20 bits of `idx`. -/
def alloc_frame_identity (s : KernelState) (page isKernel isWriteable : Nat) :
    Outcome KernelState :=
  if (s.pages page).frame ≠ 0 then
    Outcome.returned s
  else
    let idx := toU32 (first_frame s.frames s.nframes)
    if idx = 0xFFFFFFFF then
      Outcome.halted (print_screen s "No Free Frame, Kernel Panic")
    else
      let frames1 := set_frame s.frames ((idx * 0x1000) % 2 ^ 32)
      let pg := s.pages page
      let pg := { pg with present := 1 }
      let pg := { pg with rw := if isWriteable ≠ 0 then 1 else 0 }
      let pg := { pg with user := if isKernel ≠ 0 then 0 else 1 }
      let pg := { pg with frame := idx % 2 ^ 20 }
      Outcome.returned { s with frames := frames1, pages := Function.update s.pages page pg }

/-- Function `alloc_frame_virtual(page, physicalAddress, isKernel, isWriteable)`. -/
def alloc_frame_virtual (s : KernelState) (page physicalAddress isKernel isWriteable : Nat) :
    Outcome KernelState :=
  if (s.pages page).frame ≠ 0 then
    Outcome.returned s
  else
    let idx := toU32 (first_frame s.frames s.nframes)
    if idx = 0xFFFFFFFF then
      Outcome.halted (print_screen s "No Free Frame, Kernel Panic")
    else
      let frames1 := set_frame s.frames ((idx * 0x1000) % 2 ^ 32)
      let idx := (((physicalAddress / 0x1000) / 32) + ((physicalAddress / 0x1000) % 32)) % 2 ^ 32
      let pg := s.pages page
      let pg := { pg with present := 1 }
      let pg := { pg with rw := if isWriteable ≠ 0 then 1 else 0 }
      let pg := { pg with user := if isKernel ≠ 0 then 0 else 1 }
      let pg := { pg with frame := idx % 2 ^ 20 }
      Outcome.returned { s with frames := frames1, pages := Function.update s.pages page pg }

/-- Function `free_frame(page)`: `clear_frame` is handed the value of the
frame field itself. -/
def free_frame (s : KernelState) (page : Nat) : KernelState :=
  let frame := (s.pages page).frame
  if frame = 0 then
    s
  else
    let frames1 := clear_frame s.frames frame
    let pg := s.pages page
    { s with frames := frames1, pages := Function.update s.pages page { pg with frame := 0x0 } }

/-! ## Page directories -/

/-- Modelled from the spec: the `page_directory_t` declaration of `paging.h`,
which is not among the sources. `tables` holds the 1024 table pointers
(`0` is the null pointer), `tablesPhysical` the 1024 hardware words. -/
structure page_directory_t where
  tables : Nat → Nat
  tablesPhysical : Nat → Nat
  physicalAddr : Nat

/-- Function `custom_memset(dest, 0, len)` on the page-entry store: every entry
whose address lies in `[dest, dest + len)` reads as zero afterwards. -/
def custom_memset_zero (pages : Nat → page_t) (dest len : Nat) : Nat → page_t :=
  fun q => if dest ≤ q ∧ q < dest + len then zero_page else pages q

/-- Function `get_page(address, make, dir)`. The call `kmalloc_ap(sizeof(page_table_t), &tmp)`
belongs to `kheap.c`, outside the sources: the block it would return is the
argument `block` and the physical address it would store in `tmp` is `tmp`.
The result is the entry pointer (`0` for null), the directory and the state.
An entry occupies four bytes, so `&table->pages[k]` is `table + 4 * k`. -/
def get_page (address make : Nat) (dir : page_directory_t) (s : KernelState)
    (block tmp : Nat) : Nat × page_directory_t × KernelState :=
  let address := address / 0x1000
  let tableIdx := address / 1024
  if dir.tables tableIdx ≠ 0 then
    (dir.tables tableIdx + 4 * (address % 1024), dir, s)
  else if make ≠ 0 then
    let dir1 := { dir with tables := Function.update dir.tables tableIdx block }
    let s1 := { s with pages := custom_memset_zero s.pages (dir1.tables tableIdx) 0x1000 }
    let dir2 := { dir1 with
      tablesPhysical := Function.update dir1.tablesPhysical tableIdx (tmp ||| 0x7) }
    (dir2.tables tableIdx + 4 * (address % 1024), dir2, s1)
  else
    (0, dir, s)

/-! ## The page-fault report -/

/-- Function `page_fault(regs)`. `err_code` is `regs.stack_contents.err_code`,
`faultingAddress` the value read from `cr2`, and `integer_to_string` the
helper of `helpers.h`, which is not among the sources. -/
def page_fault (s : KernelState) (err_code faultingAddress : Nat)
    (integer_to_string : Nat → String) : KernelState :=
  let present : Nat := if err_code &&& 0x1 ≠ 0 then 0 else 1
  let rWrite := err_code &&& 0x2
  let uMode := err_code &&& 0x4
  let reserved := err_code &&& 0x8
  let iFetch := err_code &&& 0x10
  let s := print_screen s "Page fault! ( "
  let s := print_serial s "Page fault! ( "
  let s := if present ≠ 0 then print_screen s "not present " else s
  let s := if rWrite ≠ 0 then print_screen s "read-only " else s
  let s := if uMode ≠ 0 then print_screen s "user-mode " else s
  let s := if reserved ≠ 0 then print_screen s "reserved " else s
  let s := if iFetch ≠ 0 then print_screen s "instruction fetch " else s
  let s := print_screen s ") at address = "
  let s := print_screen s (integer_to_string faultingAddress)
  let s := print_screen s "\n"
  let s := print_serial s ") at address = "
  let s := print_serial s (integer_to_string faultingAddress)
  let s := print_serial s "\n"
  let s := print_screen s "Creating page at address "
  let s := print_screen s (integer_to_string faultingAddress)
  let s := print_screen s "\n"
  let s := print_serial s "Creating page at address "
  let s := print_serial s (integer_to_string faultingAddress)
  let s := print_serial s "\n"
  s

/-! ## Specification-side notions -/

/-- Bit `k` of the bitset: bit `k % 32` of word `k / 32`. -/
def bitset_bit (frames : Nat → Nat) (k : Nat) : Bool :=
  (frames (INDEX_FROM_BIT k)).testBit (OFFSET_FROM_BIT k)

/-- Every word of the bitset is a `u32int`. -/
def WordsU32 (frames : Nat → Nat) : Prop := ∀ i, frames i < 2 ^ 32

/-- The state the allocator starts from: an all-zero bitset over `nframes`
frames, every page entry zero (unmapped, not present), nothing written yet. -/
def initial_state (nframes : Nat) : KernelState :=
  { frames := fun _ => 0, nframes := nframes, pages := fun _ => zero_page,
    screen := [], serial := [] }

/-- One call made on the allocator by a client. -/
inductive FrameOp where
  | alloc (page isKernel isWriteable : Nat) : FrameOp
  | free (page : Nat) : FrameOp

/-- Bookkeeping kept beside a run: `allocated` counts the calls of
`alloc_frame_identity` that took a frame (made on an entry whose frame field
was `0`), `freed` the calls of `free_frame` that released one (made on an
entry whose frame field was not `0`). -/
structure Ledger where
  allocated : Nat
  freed : Nat
deriving DecidableEq

/-- Runs a sequence of allocator calls, stopping where a call never returns. -/
def run_ops : KernelState → Ledger → List FrameOp → Outcome KernelState × Ledger
  | s, l, [] => (Outcome.returned s, l)
  | s, l, FrameOp.alloc p k w :: ops =>
    match alloc_frame_identity s p k w with
    | Outcome.returned s1 =>
      run_ops s1 (if (s.pages p).frame = 0 then { l with allocated := l.allocated + 1 } else l) ops
    | Outcome.halted s1 => (Outcome.halted s1, l)
  | s, l, FrameOp.free p :: ops =>
    run_ops (free_frame s p)
      (if (s.pages p).frame ≠ 0 then { l with freed := l.freed + 1 } else l) ops

/-- The state an outcome carries. -/
def Outcome.state {σ : Type} : Outcome σ → σ
  | Outcome.returned s => s
  | Outcome.halted s => s

/-- Number of bits set among the first `nwords` words of the bitset. -/
def bits_set (frames : Nat → Nat) (nwords : Nat) : Nat :=
  Nat.count (fun k => bitset_bit frames k = true) (32 * nwords)

/-- Frame `i` is currently assigned to some page entry: a present entry holds it. -/
def assigned (s : KernelState) (i : Nat) : Prop :=
  ∃ p, (s.pages p).present = 1 ∧ (s.pages p).frame = i

/-- The allocator invariant along allocation-only runs: exactly the first `n`
bits are set, and the non-zero frame fields are those of present entries
holding the frames `1 .. n - 1`. -/
def AllocInv (s : KernelState) (n : Nat) : Prop :=
  WordsU32 s.frames ∧
  (∀ k, bitset_bit s.frames k = decide (k < n)) ∧
  (∀ p, (s.pages p).frame ≠ 0 → (s.pages p).frame < n ∧ (s.pages p).present = 1) ∧
  (∀ i, 1 ≤ i → i < n → assigned s i)

/-- The directory exclusively owns its tables: the 4 KiB blocks of two
different non-empty slots do not overlap. -/
def OwnsTables (dir : page_directory_t) : Prop :=
  ∀ i j, i < 1024 → j < 1024 → i ≠ j → dir.tables i ≠ 0 → dir.tables j ≠ 0 →
    dir.tables i + 0x1000 ≤ dir.tables j ∨ dir.tables j + 0x1000 ≤ dir.tables i

/-- The directory invariant of the data model, `physOf` giving the physical
address of a table from its pointer: a slot has a non-null table pointer iff
its hardware word has the present flag (bit 0) set, and then the hardware
word with its low 12 bits masked off is the physical address of the table. -/
def DirectoryInvariant (physOf : Nat → Nat) (dir : page_directory_t) : Prop :=
  ∀ i, i < 1024 →
    (dir.tables i ≠ 0 ↔ (dir.tablesPhysical i).testBit 0 = true) ∧
    (dir.tables i ≠ 0 → dir.tablesPhysical i &&& 0xFFFFF000 = physOf (dir.tables i))

/-- The flags of a fault error code as the specification decodes them, in
the order of the report: "not present" iff bit 0 is clear, "read-only" iff
bit 1 is set, "user-mode" iff bit 2, "reserved" iff bit 3, "instruction
fetch" iff bit 4. -/
def decoded_flags (e : Nat) : List String :=
  (if e.testBit 0 = false then ["not present "] else []) ++
  (if e.testBit 1 = true then ["read-only "] else []) ++
  (if e.testBit 2 = true then ["user-mode "] else []) ++
  (if e.testBit 3 = true then ["reserved "] else []) ++
  (if e.testBit 4 = true then ["instruction fetch "] else [])

/-- A directory whose slots 1 and 2 own the tables at `0xC0200000` and
`0xC0201000`, with physical addresses `0x200000` and `0x201000`. -/
def two_table_dir : page_directory_t :=
  { tables := fun i => if i = 1 then 0xC0200000 else if i = 2 then 0xC0201000 else 0,
    tablesPhysical := fun i => if i = 1 then 0x200007 else if i = 2 then 0x201007 else 0,
    physicalAddr := 0 }

/-- A directory none of whose slots owns a table. -/
def empty_dir : page_directory_t :=
  { tables := fun _ => 0, tablesPhysical := fun _ => 0, physicalAddr := 0 }

/-- A state in which every scanned word of the bitset is full: 64 frames, all
in use, every page entry zero. -/
def exhausted_state : KernelState :=
  { frames := fun _ => 0xFFFFFFFF, nframes := 64, pages := fun _ => zero_page,
    screen := [], serial := [] }

/-! ## Interrupt handlers (`day-6/interrupt/interrupt.c`) -/

/-- Function `register_interrupt_handler(interrupt, handler)`. The argument
`interrupt_handlers` is the static table of handler pointers (`0` is `NULL`);
`SYSCALL_INT_IDX` is a constant of `interrupt.h`, which is not among the
sources. The result is the value returned and the table afterwards. -/
def register_interrupt_handler (SYSCALL_INT_IDX : Nat) (interrupt_handlers : Nat → Nat)
    (interrupt handler : Nat) : Nat × (Nat → Nat) :=
  if interrupt > 255 then
    (1, interrupt_handlers)
  else if interrupt = SYSCALL_INT_IDX then
    (1, interrupt_handlers)
  else if interrupt_handlers interrupt ≠ 0 then
    (1, interrupt_handlers)
  else
    (0, Function.update interrupt_handlers interrupt handler)

/-! ## Activation of a directory -/

/-- What `switch_page_directory` acts on: the global `g_currentDirectory` (a
pointer) and the control registers `cr3` and `cr0`. -/
structure PagingRegs where
  g_currentDirectory : Nat
  cr3 : Nat
  cr0 : Nat
deriving DecidableEq

/-- One write made by `switch_page_directory`. -/
inductive RegWrite where
  | current_directory (dir : Nat) : RegWrite
  | load_cr3 (value : Nat) : RegWrite
  | store_cr0 (value : Nat) : RegWrite
deriving DecidableEq

/-- Function `switch_page_directory(dir)`: the state it ends in and, in program
order, each write it makes paired with the state right after that write.
`dir` is the pointer passed in and `tablesPhysical_offset` the offset of the
member `tablesPhysical` in `page_directory_t` (declared in `paging.h`, which
is not among the sources), so that `&dir->tablesPhysical` is their sum. -/
def switch_page_directory (m : PagingRegs) (dir tablesPhysical_offset : Nat) :
    PagingRegs × List (RegWrite × PagingRegs) :=
  let m1 := { m with g_currentDirectory := dir }
  let m2 := { m1 with cr3 := dir + tablesPhysical_offset }
  let cr0 := m2.cr0
  let cr0 := cr0 ||| 0x80000000
  let m3 := { m2 with cr0 := cr0 }
  (m3, [(RegWrite.current_directory dir, m1),
        (RegWrite.load_cr3 (dir + tablesPhysical_offset), m2),
        (RegWrite.store_cr0 cr0, m3)])

/-! ## Set-up of the bitset in `init_paging` -/

/-- Function `custom_memset(dest, val, len)` on byte-addressed memory. -/
def custom_memset (mem : Nat → Nat) (dest val len : Nat) : Nat → Nat :=
  fun a => if dest ≤ a ∧ a < dest + len then val else mem a

/-- The 32-bit word `frames[i]` read from byte-addressed memory (little endian),
`frames` being the pointer to the bitset. -/
def frames_word (mem : Nat → Nat) (frames i : Nat) : Nat :=
  mem (frames + 4 * i) + 2 ^ 8 * mem (frames + 4 * i + 1) + 2 ^ 16 * mem (frames + 4 * i + 2)
    + 2 ^ 24 * mem (frames + 4 * i + 3)

/-- What the first lines of `init_paging` leave behind: the global `nframes`,
the pointer `frames`, the byte count asked of `kmalloc`, the byte count
handed to `custom_memset`, and memory after the call of `custom_memset`. -/
structure BitsetSetup where
  nframes : Nat
  frames : Nat
  requested : Nat
  zeroed : Nat
  mem : Nat → Nat

/-- Lines 125-129 of `init_paging`: `nframes = memEndPage / 0x1000`,
`frames = kmalloc(INDEX_FROM_BIT(nframes) + 1)` and
`custom_memset(frames, 0, INDEX_FROM_BIT(nframes))`. `kmalloc` belongs to
`kheap.c`, outside the sources: it is the argument giving the pointer
returned for a size in bytes. -/
def init_paging_bitset (mem : Nat → Nat) (kmalloc : Nat → Nat) : BitsetSetup :=
  let memEndPage := 0xC1000000
  let nframes := memEndPage / 0x1000
  let frames := kmalloc (INDEX_FROM_BIT nframes + 1)
  let mem1 := custom_memset mem frames 0 (INDEX_FROM_BIT nframes)
  { nframes := nframes, frames := frames, requested := INDEX_FROM_BIT nframes + 1,
    zeroed := INDEX_FROM_BIT nframes, mem := mem1 }

/-! ## The mapping loops of `init_paging` -/

/-- The part of `kheap.c` (outside the sources) on which the loops of
`init_paging` depend: `kmalloc_ap k` is the block and the physical address
returned by the `k`-th call of `kmalloc_ap` (counted from `0`), and `top k`
is the value of `g_CurrentPhysicalAddressTop` once `k` calls have been made. -/
structure Kheap where
  kmalloc_ap : Nat → Nat × Nat
  top : Nat → Nat

/-- What the loops of `init_paging` thread along: the kernel directory, the
kernel state, the number of calls of `kmalloc_ap` made so far and, as
bookkeeping, the entries mapped so far (those for which an allocation call
found the frame field `0` and took a frame), latest first. -/
structure BootState where
  dir : page_directory_t
  s : KernelState
  ncalls : Nat
  mapped : List Nat

/-- The shape shared by the bodies of the two loops of `init_paging`,
`alloc(get_page(v, 1, g_kernelDirectory), ...)`: `get_page` runs first, calling
`kmalloc_ap` exactly when the slot of `v` is empty, and the allocation call
`alloc` then acts on the entry it returned. -/
def map_page (heap : Kheap) (b : BootState) (v : Nat)
    (alloc : KernelState → Nat → Outcome KernelState) : Outcome BootState :=
  let r := get_page v 1 b.dir b.s (heap.kmalloc_ap b.ncalls).1 (heap.kmalloc_ap b.ncalls).2
  let ncalls := if b.dir.tables (v / 0x1000 / 1024) = 0 then b.ncalls + 1 else b.ncalls
  match alloc r.2.2 r.1 with
  | Outcome.returned s1 =>
    Outcome.returned
      { dir := r.2.1, s := s1, ncalls := ncalls,
        mapped := if (r.2.2.pages r.1).frame = 0 then r.1 :: b.mapped else b.mapped }
  | Outcome.halted s1 =>
    Outcome.halted { dir := r.2.1, s := s1, ncalls := ncalls, mapped := b.mapped }

/-- Body of the first loop of `init_paging`:
`alloc_frame_identity(get_page(i, 1, g_kernelDirectory), 0, 0)`. -/
def identity_map_page (heap : Kheap) (b : BootState) (i : Nat) : Outcome BootState :=
  map_page heap b i (fun s page => alloc_frame_identity s page 0 0)

/-- First loop of `init_paging`, `while (i < (g_KerNelPhysicalAddressStart & 0xFFFFF000))`,
with `fuel` bounding the number of iterations: `none` when the bound is
reached, otherwise how the loop ended and the value of `i` there. -/
def identity_map_loop (heap : Kheap) (g_KerNelPhysicalAddressStart : Nat) :
    Nat → BootState → Nat → Option (Outcome (BootState × Nat))
  | 0, _, _ => none
  | fuel + 1, b, i =>
    if i < g_KerNelPhysicalAddressStart &&& 0xFFFFF000 then
      match identity_map_page heap b i with
      | Outcome.returned b1 =>
        identity_map_loop heap g_KerNelPhysicalAddressStart fuel b1 ((i + 0x1000) % 2 ^ 32)
      | Outcome.halted b1 => some (Outcome.halted (b1, i))
    else
      some (Outcome.returned (b, i))

/-- Body of the second loop of `init_paging`:
`alloc_frame_virtual(get_page(i + 0xC0100000, 1, g_kernelDirectory), i, 0, 0)`,
the sum being taken in 32 bits. -/
def relocate_page (heap : Kheap) (b : BootState) (i : Nat) : Outcome BootState :=
  map_page heap b ((i + 0xC0100000) % 2 ^ 32) (fun s page => alloc_frame_virtual s page i 0 0)

/-- Second loop of `init_paging`, `while (i < g_CurrentPhysicalAddressTop)`, the
bound being read afresh at every test, with `fuel` bounding the number of
iterations. -/
def relocation_loop (heap : Kheap) : Nat → BootState → Nat → Option (Outcome (BootState × Nat))
  | 0, _, _ => none
  | fuel + 1, b, i =>
    if i < heap.top b.ncalls then
      match relocate_page heap b i with
      | Outcome.returned b1 => relocation_loop heap fuel b1 ((i + 0x1000) % 2 ^ 32)
      | Outcome.halted b1 => some (Outcome.halted (b1, i))
    else
      some (Outcome.returned (b, i))

/-- Lines 139-155 of `init_paging`: `i = 0`, the first loop, then the second
loop continuing from the value of `i` the first one left. -/
def init_paging_loops (heap : Kheap) (g_KerNelPhysicalAddressStart fuel : Nat)
    (b : BootState) : Option (Outcome (BootState × Nat)) :=
  match identity_map_loop heap g_KerNelPhysicalAddressStart fuel b 0 with
  | some (Outcome.returned (b1, i)) => relocation_loop heap fuel b1 i
  | some (Outcome.halted r) => some (Outcome.halted r)
  | none => none

/-- A heap whose `k`-th table block lies at `0xC0400000 + 0x1000 * k`, with
physical address `0x400000 + 0x1000 * k`, and whose high-water mark after
`k` table allocations is `0x6000 + 0x1000 * k`. -/
def sample_heap : Kheap :=
  { kmalloc_ap := fun k => (0xC0400000 + 0x1000 * k, 0x400000 + 0x1000 * k),
    top := fun k => 0x6000 + 0x1000 * k }

/-- The state before the loops: an empty kernel directory, the all-zero bitset
over `nframes` frames, no table allocated yet. -/
def boot_state (nframes : Nat) : BootState :=
  { dir := empty_dir, s := initial_state nframes, ncalls := 0, mapped := [] }

/-- A state in which frame `0` is already in use: 64 frames, only bit `0` of
the bitset set, every page entry zero. -/
def low_frame_used_state : KernelState :=
  { frames := fun i => if i = 0 then 1 else 0, nframes := 64, pages := fun _ => zero_page,
    screen := [], serial := [] }

/-- A state with `2 ^ 20 + 32` frames of which the first `2 ^ 20` are in use:
the first `32768` words of the bitset are full, the others zero, and every
page entry is zero. -/
def beyond_frame_field_state : KernelState :=
  { frames := fun i => if i < 32768 then 0xFFFFFFFF else 0, nframes := 1048608,
    pages := fun _ => zero_page, screen := [], serial := [] }

/-! ## Bit-level lemmas -/

theorem and_one_shiftLeft_eq_zero_iff (w j : Nat) :
    w &&& (0x1 <<< j) = 0 ↔ w.testBit j = false := by
  rw [Nat.one_shiftLeft]
  constructor
  · intro h
    have := congrArg (fun x => x.testBit j) h
    simpa [Nat.testBit_two_pow_self] using this
  · intro h
    apply Nat.eq_of_testBit_eq
    intro i
    by_cases hij : j = i
    · subst hij; simp [h]
    · simp [Nat.testBit_two_pow_of_ne hij]

theorem testBit_or_one_shiftLeft (w j i : Nat) :
    (w ||| (0x1 <<< j)).testBit i = (w.testBit i || decide (j = i)) := by
  rw [Nat.one_shiftLeft, Nat.testBit_or, Nat.testBit_two_pow]

theorem testBit_and_not_one_shiftLeft (w j i : Nat) (hj : j < 32) :
    (w &&& (0xFFFFFFFF - (0x1 <<< j))).testBit i
      = (w.testBit i && (decide (i < 32) && !decide (j = i))) := by
  rw [Nat.one_shiftLeft, Nat.testBit_and]
  have h1 : 2 ^ j < 2 ^ 32 := Nat.pow_lt_pow_right (by decide) hj
  have h2 : 0xFFFFFFFF - 2 ^ j = 2 ^ 32 - (2 ^ j + 1) := by omega
  rw [h2, Nat.testBit_two_pow_sub_succ h1, Nat.testBit_two_pow]

theorem exists_clear_bit_of_ne_full (w : Nat) (hw : w < 2 ^ 32) (hne : w ≠ 0xFFFFFFFF) :
    ∃ j, j < 32 ∧ w.testBit j = false := by
  by_contra hcon
  push_neg at hcon
  apply hne
  apply Nat.eq_of_testBit_eq
  intro i
  have h3 : (0xFFFFFFFF : Nat) = 2 ^ 32 - 1 := by norm_num
  rw [h3, Nat.testBit_two_pow_sub_one]
  by_cases hi : i < 32
  · have := hcon i hi
    simp only [Bool.not_eq_false] at this
    simp [this, hi]
  · have hle : 2 ^ 32 ≤ 2 ^ i := Nat.pow_le_pow_right (by decide) (by omega)
    rw [Nat.testBit_lt_two_pow (lt_of_lt_of_le hw hle)]
    simp [hi]

theorem full_word_testBit (j : Nat) (hj : j < 32) : (0xFFFFFFFF : Nat).testBit j = true := by
  have h3 : (0xFFFFFFFF : Nat) = 2 ^ 32 - 1 := by norm_num
  rw [h3, Nat.testBit_two_pow_sub_one]
  simp [hj]

/-! ## The scan of `first_frame` -/

theorem first_frame_bits_some (w : Nat) :
    ∀ (n j r : Nat), first_frame_bits w j n = some r →
      j ≤ r ∧ r < j + n ∧ w.testBit r = false ∧ ∀ r', j ≤ r' → r' < r → w.testBit r' = true := by
  intro n
  induction n with
  | zero => intro j r h; simp [first_frame_bits] at h
  | succ n ih =>
    intro j r h
    unfold first_frame_bits at h
    split at h
    · rename_i hz
      injection h with h
      subst h
      refine ⟨le_refl _, by omega, (and_one_shiftLeft_eq_zero_iff w j).1 hz, ?_⟩
      intro r' h1 h2; omega
    · rename_i hz
      obtain ⟨h1, h2, h3, h4⟩ := ih (j + 1) r h
      refine ⟨by omega, by omega, h3, ?_⟩
      intro r' hr1 hr2
      by_cases hjr : r' = j
      · subst hjr
        rw [and_one_shiftLeft_eq_zero_iff] at hz
        simpa using hz
      · exact h4 r' (by omega) hr2

theorem first_frame_bits_none (w : Nat) :
    ∀ (n j : Nat), first_frame_bits w j n = none →
      ∀ r, j ≤ r → r < j + n → w.testBit r = true := by
  intro n
  induction n with
  | zero => intro j _ r h1 h2; omega
  | succ n ih =>
    intro j h r h1 h2
    unfold first_frame_bits at h
    split at h
    · simp at h
    · rename_i hz
      by_cases hjr : r = j
      · subst hjr
        rw [and_one_shiftLeft_eq_zero_iff] at hz
        simpa using hz
      · exact ih (j + 1) h r (by omega) (by omega)

theorem first_frame_bits_of_ne_full (w : Nat) (hw : w < 2 ^ 32) (hne : w ≠ 0xFFFFFFFF) :
    ∃ j, first_frame_bits w 0 32 = some j := by
  cases h : first_frame_bits w 0 32 with
  | some j => exact ⟨j, rfl⟩
  | none =>
    exfalso
    obtain ⟨j, hj, hc⟩ := exists_clear_bit_of_ne_full w hw hne
    have := first_frame_bits_none w 32 0 h j (Nat.zero_le _) (by omega)
    rw [hc] at this
    exact Bool.noConfusion this

theorem first_frame_words_full (frames : Nat → Nat) :
    ∀ (n i : Nat), (∀ i', i ≤ i' → i' < i + n → frames i' = 0xFFFFFFFF) →
      first_frame_words frames i n = -1 := by
  intro n
  induction n with
  | zero => intro i _; rfl
  | succ n ih =>
    intro i h
    unfold first_frame_words
    rw [if_neg (by simpa using h i (le_refl _) (by omega))]
    exact ih (i + 1) (fun i' h1 h2 => h i' (by omega) (by omega))

theorem first_frame_words_found (frames : Nat → Nat) (i0 j0 : Nat) :
    ∀ (n i : Nat), i ≤ i0 → i0 < i + n →
      (∀ i', i ≤ i' → i' < i0 → frames i' = 0xFFFFFFFF) →
      frames i0 ≠ 0xFFFFFFFF → first_frame_bits (frames i0) 0 32 = some j0 →
      first_frame_words frames i n = toS32 (((i0 * 32) + j0) % 2 ^ 32) := by
  intro n
  induction n with
  | zero => intro i h1 h2; omega
  | succ n ih =>
    intro i h1 h2 hfull hne hbits
    unfold first_frame_words
    by_cases hi : i = i0
    · subst hi
      rw [if_pos hne, hbits]
    · rw [if_neg (by simpa using hfull i (le_refl _) (by omega))]
      exact ih (i + 1) (by omega) (by omega) (fun i' a b => hfull i' (by omega) b) hne hbits

theorem first_frame_cases (frames : Nat → Nat) (nframes : Nat) (hw : WordsU32 frames) :
    ((∀ i, i < nframes / 32 → frames i = 0xFFFFFFFF) ∧ first_frame frames nframes = -1) ∨
    ∃ i0 j0, i0 < nframes / 32 ∧ j0 < 32 ∧ (∀ i, i < i0 → frames i = 0xFFFFFFFF) ∧
      frames i0 ≠ 0xFFFFFFFF ∧ (frames i0).testBit j0 = false ∧
      (∀ j, j < j0 → (frames i0).testBit j = true) ∧
      first_frame frames nframes = toS32 (((i0 * 32) + j0) % 2 ^ 32) := by
  by_cases hall : ∀ i, i < nframes / 32 → frames i = 0xFFFFFFFF
  · left
    refine ⟨hall, ?_⟩
    unfold first_frame INDEX_FROM_BIT
    exact first_frame_words_full frames _ 0 (fun i' _ h2 => hall i' (by omega))
  · right
    have hex : ∃ i, i < nframes / 32 ∧ frames i ≠ 0xFFFFFFFF := by
      by_contra hcon
      push_neg at hcon
      exact hall hcon
    classical
    let i0 := Nat.find hex
    have hi0 : i0 < nframes / 32 ∧ frames i0 ≠ 0xFFFFFFFF := Nat.find_spec hex
    have hmin : ∀ i, i < i0 → frames i = 0xFFFFFFFF := by
      intro i hi
      by_contra hne
      exact Nat.find_min hex hi ⟨by omega, hne⟩
    obtain ⟨j0, hj0⟩ := first_frame_bits_of_ne_full (frames i0) (hw i0) hi0.2
    obtain ⟨_, hlt, hclr, hset⟩ := first_frame_bits_some (frames i0) 32 0 j0 hj0
    refine ⟨i0, j0, hi0.1, by omega, hmin, hi0.2, hclr, ?_, ?_⟩
    · intro j hj
      exact hset j (Nat.zero_le _) hj
    · unfold first_frame INDEX_FROM_BIT
      exact first_frame_words_found frames i0 j0 _ 0 (Nat.zero_le _) (by omega)
        (fun i' _ h2 => hmin i' h2) hi0.2 hj0

theorem toS32_ne_neg_one (x : Nat) (hx : x < 2 ^ 32 - 1) : toS32 x ≠ -1 := by
  unfold toS32
  split <;> omega

theorem toU32_toS32 (x : Nat) (hx : x < 2 ^ 32) : toU32 (toS32 x) = x := by
  unfold toU32 toS32
  split <;> omega

theorem toS32_of_lt (x : Nat) (hx : x < 2 ^ 31) : toS32 x = (x : Int) := by
  unfold toS32
  have h : x % 2 ^ 32 = x := Nat.mod_eq_of_lt (by omega)
  rw [h, if_pos hx]

/-- The state `alloc_frame_identity` returns when it takes frame `f`. -/
theorem alloc_frame_identity_eq (s : KernelState) (page isKernel isWriteable f : Nat)
    (hf : f < 2 ^ 20) (hret : first_frame s.frames s.nframes = toS32 f)
    (hfree : (s.pages page).frame = 0) :
    alloc_frame_identity s page isKernel isWriteable =
      Outcome.returned { s with
        frames := Function.update s.frames (f / 32) (s.frames (f / 32) ||| (0x1 <<< (f % 32))),
        pages := Function.update s.pages page
          { present := 1,
            rw := if isWriteable ≠ 0 then 1 else 0,
            user := if isKernel ≠ 0 then 0 else 1,
            accessed := (s.pages page).accessed,
            dirty := (s.pages page).dirty,
            unused := (s.pages page).unused,
            frame := f } } := by
  have hu : toU32 (first_frame s.frames s.nframes) = f := by
    rw [hret]; exact toU32_toS32 f (by omega)
  have h1 : (f * 0x1000) % 2 ^ 32 / 0x1000 = f := by omega
  have h2 : f % 2 ^ 20 = f := Nat.mod_eq_of_lt hf
  unfold alloc_frame_identity
  rw [if_neg (by simp [hfree])]
  simp only [hu]
  rw [if_neg (by omega)]
  simp only [set_frame, INDEX_FROM_BIT, OFFSET_FROM_BIT, h1, h2]

theorem first_frame_of_clear (frames : Nat → Nat) (nframes : Nat) (hw : WordsU32 frames)
    (hclear : ∃ k, k < 32 * (nframes / 32) ∧ bitset_bit frames k = false) :
    ∃ f, f < 32 * (nframes / 32) ∧ first_frame frames nframes = toS32 (f % 2 ^ 32) ∧
      bitset_bit frames f = false ∧ ∀ k, k < f → bitset_bit frames k = true := by
  rcases first_frame_cases frames nframes hw with ⟨hall, _⟩ | ⟨i0, j0, hi0, hj0, hfull, hne, hclr, hset, hret⟩
  · exfalso
    obtain ⟨k, hk, hc⟩ := hclear
    unfold bitset_bit INDEX_FROM_BIT OFFSET_FROM_BIT at hc
    rw [hall (k / 32) (by omega), full_word_testBit _ (Nat.mod_lt _ (by decide))] at hc
    exact Bool.noConfusion hc
  · have hdiv : (i0 * 32 + j0) / 32 = i0 := by omega
    have hrem : (i0 * 32 + j0) % 32 = j0 := by omega
    refine ⟨i0 * 32 + j0, by omega, hret, ?_, ?_⟩
    · unfold bitset_bit INDEX_FROM_BIT OFFSET_FROM_BIT
      rw [hdiv, hrem]; exact hclr
    · intro k' hk'
      unfold bitset_bit INDEX_FROM_BIT OFFSET_FROM_BIT
      by_cases hlt : k' / 32 < i0
      · rw [hfull _ hlt]
        exact full_word_testBit _ (Nat.mod_lt _ (by decide))
      · have h1 : k' / 32 = i0 := by omega
        rw [h1]
        exact hset _ (by omega)

/-! ## Allocation-only runs -/

theorem count_lt_of_le (n : Nat) : ∀ N, n ≤ N → Nat.count (fun k => k < n) N = n := by
  intro N
  induction N with
  | zero => intro h; simp [Nat.le_zero.1 h]
  | succ N ih =>
    intro h
    rw [Nat.count_succ]
    by_cases hN : n ≤ N
    · rw [ih hN, if_neg (by omega), Nat.add_zero]
    · have hn : n = N + 1 := by omega
      subst hn
      have hall : Nat.count (fun k => k < N + 1) N = N := by
        rw [Nat.count_eq_card_filter_range]
        have : Finset.filter (fun k => k < N + 1) (Finset.range N) = Finset.range N := by
          apply Finset.filter_true_of_mem
          intro x hx
          have := Finset.mem_range.1 hx
          omega
        rw [this, Finset.card_range]
      rw [hall, if_pos (by omega)]

theorem bits_set_of_prefix (frames : Nat → Nat) (n nwords : Nat)
    (hbits : ∀ k, bitset_bit frames k = decide (k < n)) (hn : n ≤ 32 * nwords) :
    bits_set frames nwords = n := by
  unfold bits_set
  have : (fun k => bitset_bit frames k = true) = (fun k => k < n) := by
    funext k
    rw [hbits k]
    simp
  simp only [this]
  exact count_lt_of_le n _ hn

theorem AllocInv_initial (s : KernelState) (h0 : ∀ i, s.frames i = 0)
    (hp : ∀ p, (s.pages p).frame = 0) : AllocInv s 0 := by
  refine ⟨fun i => by rw [h0 i]; decide, ?_, ?_, ?_⟩
  · intro k
    simp [bitset_bit, h0]
  · intro p hne
    exact absurd (hp p) hne
  · intro i h1 h2
    omega

theorem AllocInv_first_frame (s : KernelState) (n : Nat) (hinv : AllocInv s n)
    (hroom : n < 32 * (s.nframes / 32)) :
    first_frame s.frames s.nframes = toS32 n := by
  obtain ⟨hw, hbits, _, _⟩ := hinv
  obtain ⟨f, hf, hret, hclr, hset⟩ :=
    first_frame_of_clear s.frames s.nframes hw ⟨n, hroom, by rw [hbits n]; simp⟩
  have h1 : ¬ f < n := by
    intro hlt
    rw [hbits f] at hclr
    simp [hlt] at hclr
  have h2 : ¬ n < f := by
    intro hlt
    have := hset n hlt
    rw [hbits n] at this
    simp at this
  have hfn : f = n := by omega
  subst hfn
  have h32 : 32 * (s.nframes / 32) ≤ s.nframes := Nat.mul_div_le _ _
  rw [hret]
  unfold toS32
  simp only [Nat.mod_mod]

theorem AllocInv_alloc (s : KernelState) (n page isKernel isWriteable : Nat)
    (hinv : AllocInv s n) (hn : s.nframes ≤ 2 ^ 20) (hroom : n < 32 * (s.nframes / 32)) :
    ∃ s1, alloc_frame_identity s page isKernel isWriteable = Outcome.returned s1 ∧
      s1.nframes = s.nframes ∧
      AllocInv s1 (if (s.pages page).frame = 0 then n + 1 else n) := by
  by_cases hfree : (s.pages page).frame = 0
  · have hret := AllocInv_first_frame s n hinv hroom
    have h32 : 32 * (s.nframes / 32) ≤ s.nframes := Nat.mul_div_le _ _
    have hn20 : n < 2 ^ 20 := by omega
    obtain ⟨hw, hbits, hpages, hheld⟩ := hinv
    refine ⟨_, alloc_frame_identity_eq s page isKernel isWriteable n hn20 hret hfree, rfl, ?_⟩
    rw [if_pos hfree]
    refine ⟨?_, ?_, ?_, ?_⟩
    · intro i
      by_cases hi : i = n / 32
      · subst hi
        simp only [Function.update_same]
        rw [Nat.one_shiftLeft]
        exact Nat.or_lt_two_pow (hw _)
          (Nat.pow_lt_pow_right (by decide) (Nat.mod_lt _ (by decide)))
      · simp only [Function.update_noteq hi]
        exact hw i
    · intro k
      have hk := hbits k
      unfold bitset_bit INDEX_FROM_BIT OFFSET_FROM_BIT at hk ⊢
      by_cases hi : k / 32 = n / 32
      · rw [hi] at hk
        rw [hi]
        dsimp only
        rw [Function.update_same, testBit_or_one_shiftLeft, hk]
        by_cases hkn : k < n
        · simp [hkn]; omega
        · by_cases hkn2 : k = n
          · subst hkn2; simp
          · have h1 : ¬ n % 32 = k % 32 := by omega
            have h2 : ¬ k < n + 1 := by omega
            simp [hkn, h1, h2]
      · simp only [Function.update_noteq hi]
        rw [hk]
        have : (k < n) ↔ (k < n + 1) := by
          constructor
          · intro h; omega
          · intro h
            have : k ≠ n := fun h2 => hi (by rw [h2])
            omega
        simp [this]
    · intro p hne
      by_cases hp : p = page
      · subst hp
        dsimp only
        rw [Function.update_same]
        exact ⟨Nat.lt_succ_self n, rfl⟩
      · simp only [Function.update_noteq hp] at hne ⊢
        obtain ⟨h1, h2⟩ := hpages p hne
        exact ⟨by omega, h2⟩
    · intro i h1 h2
      by_cases hin : i = n
      · subst hin
        exact ⟨page, by simp only [Function.update_same], by simp only [Function.update_same]⟩
      · obtain ⟨p, hp1, hp2⟩ := hheld i h1 (by omega)
        have hp : p ≠ page := by
          intro h
          rw [h, hfree] at hp2
          omega
        exact ⟨p, by simp only [Function.update_noteq hp]; exact hp1,
          by simp only [Function.update_noteq hp]; exact hp2⟩
  · refine ⟨s, ?_, rfl, ?_⟩
    · unfold alloc_frame_identity
      rw [if_pos hfree]
    · rw [if_neg hfree]
      exact hinv

theorem AllocInv_run (nframes : Nat) (hn : nframes ≤ 2 ^ 20) :
    ∀ (ops : List FrameOp) (s : KernelState) (l : Ledger),
      s.nframes = nframes → AllocInv s l.allocated →
      (∀ op, op ∈ ops → ∃ p k w, op = FrameOp.alloc p k w) →
      l.allocated + ops.length ≤ 32 * (nframes / 32) →
      ∃ s1 l1, run_ops s l ops = (Outcome.returned s1, l1) ∧ s1.nframes = nframes ∧
        AllocInv s1 l1.allocated ∧ l1.freed = l.freed ∧
        l1.allocated ≤ l.allocated + ops.length := by
  intro ops
  induction ops with
  | nil =>
    intro s l hs hinv _ _
    exact ⟨s, l, rfl, hs, hinv, rfl, by simp⟩
  | cons op ops ih =>
    intro s l hs hinv hops hroom
    obtain ⟨p, k, w, hop⟩ := hops op (List.mem_cons_self _ _)
    subst hop
    simp only [List.length_cons] at hroom
    obtain ⟨s1, hs1, hnf, hinv1⟩ :=
      AllocInv_alloc s l.allocated p k w hinv (by omega) (by rw [hs]; omega)
    have hstep : run_ops s l (FrameOp.alloc p k w :: ops) =
        run_ops s1 (if (s.pages p).frame = 0 then { l with allocated := l.allocated + 1 } else l)
          ops := by
      simp only [run_ops, hs1]
    have hle : (if (s.pages p).frame = 0 then
        ({ l with allocated := l.allocated + 1 } : Ledger) else l).allocated
        = if (s.pages p).frame = 0 then l.allocated + 1 else l.allocated := by
      split <;> rfl
    have hfr : (if (s.pages p).frame = 0 then
        ({ l with allocated := l.allocated + 1 } : Ledger) else l).freed = l.freed := by
      split <;> rfl
    obtain ⟨s2, l2, hrun, hnf2, hinv2, hfreed, hcount⟩ :=
      ih s1 _ (by rw [hnf, hs]) (by rw [hle]; exact hinv1)
        (fun op hmem => hops op (List.mem_cons_of_mem _ hmem))
        (by rw [hle]; split <;> omega)
    refine ⟨s2, l2, by rw [hstep]; exact hrun, hnf2, hinv2, by rw [hfreed, hfr], ?_⟩
    rw [hle] at hcount
    simp only [List.length_cons]
    split at hcount <;> omega

/-! ## The hardware word of a directory slot -/

theorem flags_word_present (tmp : Nat) : (tmp ||| 0x7).testBit 0 = true := by
  rw [Nat.testBit_or]
  have : (0x7 : Nat).testBit 0 = true := by decide
  rw [this, Bool.or_true]

theorem flags_word_masked (tmp : Nat) (htmp : tmp < 2 ^ 32) (halign : tmp % 0x1000 = 0) :
    (tmp ||| 0x7) &&& 0xFFFFF000 = tmp := by
  apply Nat.eq_of_testBit_eq
  intro i
  rw [Nat.testBit_and, Nat.testBit_or]
  have hmask : (0xFFFFF000 : Nat) = 2 ^ 32 - ((2 ^ 12 - 1) + 1) := by norm_num
  have hlt : 2 ^ 12 - 1 < 2 ^ 32 := by norm_num
  rw [hmask, Nat.testBit_two_pow_sub_succ hlt, Nat.testBit_two_pow_sub_one]
  by_cases hi : i < 12
  · have hlow : tmp.testBit i = false := by
      have h := Nat.testBit_mod_two_pow tmp 12 i
      have h0 : tmp % 2 ^ 12 = 0 := halign
      rw [h0] at h
      simp [hi] at h
      exact h
    simp [hi, hlow]
  · by_cases hi2 : i < 32
    · have h7 : (0x7 : Nat).testBit i = false :=
        Nat.testBit_lt_two_pow (lt_of_lt_of_le (by norm_num : (7 : Nat) < 2 ^ 3)
          (Nat.pow_le_pow_right (by decide) (by omega)))
      simp [hi, hi2, h7]
    · have hhigh : tmp.testBit i = false :=
        Nat.testBit_lt_two_pow (lt_of_lt_of_le htmp
          (Nat.pow_le_pow_right (by decide) (by omega)))
      simp [hi2, hhigh]

/-! ## Decoding of the fault error code -/

theorem and_bit_ne_zero_iff (e j : Nat) : e &&& 2 ^ j ≠ 0 ↔ e.testBit j = true := by
  have h := and_one_shiftLeft_eq_zero_iff e j
  rw [Nat.one_shiftLeft] at h
  rw [Ne, h]
  cases e.testBit j <;> simp

theorem and_bit_mod (e j : Nat) (hj : j < 5) : (e % 32) &&& 2 ^ j = e &&& 2 ^ j := by
  apply Nat.eq_of_testBit_eq
  intro i
  rw [Nat.testBit_and, Nat.testBit_and, Nat.testBit_two_pow]
  have h32 : (32 : Nat) = 2 ^ 5 := by norm_num
  rw [h32, Nat.testBit_mod_two_pow]
  by_cases hij : j = i
  · subst hij
    simp [hj]
  · simp [hij]

/-! ## C1: what `first_frame` returns -/

/-- C1 (as amended). For every bitset of 32-bit words and every `u32int` frame
count, `first_frame` returns `-1` exactly when every scanned word equals
`0xFFFFFFFF`; otherwise there is a smallest clear bit index `k` among the
scanned words, it is the lowest clear bit of the first word that is not
`0xFFFFFFFF`, the returned value read back as `u32int` (as both callers do)
is `k`, and the signed value returned is `k` itself whenever `k < 2 ^ 31`. -/
theorem first_frame_returns_least_clear (frames : Nat → Nat) (nframes : Nat)
    (hw : WordsU32 frames) (hn : nframes < 2 ^ 32) :
    (first_frame frames nframes = -1 ↔ ∀ i, i < nframes / 32 → frames i = 0xFFFFFFFF) ∧
    (first_frame frames nframes ≠ -1 →
      ∃ k, k < 32 * (nframes / 32) ∧ bitset_bit frames k = false ∧
        (∀ k', k' < k → bitset_bit frames k' = true) ∧
        (∀ i, i < k / 32 → frames i = 0xFFFFFFFF) ∧ frames (k / 32) ≠ 0xFFFFFFFF ∧
        toU32 (first_frame frames nframes) = k ∧
        (k < 2 ^ 31 → first_frame frames nframes = (k : Int))) := by
  rcases first_frame_cases frames nframes hw with ⟨hall, hret⟩ | ⟨i0, j0, hi0, hj0, hfull, hne, hclr, hset, hret⟩
  · exact ⟨⟨fun _ => hall, fun _ => hret⟩, fun h => absurd hret h⟩
  · have hk : i0 * 32 + j0 < 2 ^ 32 - 1 := by omega
    have hmod : (i0 * 32 + j0) % 2 ^ 32 = i0 * 32 + j0 := Nat.mod_eq_of_lt (by omega)
    rw [hmod] at hret
    have hdiv : (i0 * 32 + j0) / 32 = i0 := by omega
    have hrem : (i0 * 32 + j0) % 32 = j0 := by omega
    refine ⟨⟨fun h => absurd (hret ▸ h) (toS32_ne_neg_one _ hk), fun h => absurd (h i0 hi0) hne⟩, ?_⟩
    intro _
    refine ⟨i0 * 32 + j0, by omega, ?_, ?_, ?_, ?_, ?_, ?_⟩
    · unfold bitset_bit INDEX_FROM_BIT OFFSET_FROM_BIT
      rw [hdiv, hrem]; exact hclr
    · intro k' hk'
      unfold bitset_bit INDEX_FROM_BIT OFFSET_FROM_BIT
      by_cases hlt : k' / 32 < i0
      · rw [hfull _ hlt]
        exact full_word_testBit _ (Nat.mod_lt _ (by decide))
      · have h1 : k' / 32 = i0 := by omega
        rw [h1]
        exact hset _ (by omega)
    · rw [hdiv]; exact hfull
    · rw [hdiv]; exact hne
    · rw [hret]; exact toU32_toS32 _ (by omega)
    · intro hlt
      rw [hret]; exact toS32_of_lt _ hlt

/-- Witness for C1: a bitset whose first word is full and whose second word is `5`,
scanned over three words. -/
theorem first_frame_returns_least_clear_witness :
    (first_frame (fun i => if i = 0 then 0xFFFFFFFF else 5) 96 = -1 ↔
      ∀ i, i < 96 / 32 → (fun i => if i = 0 then 0xFFFFFFFF else 5) i = 0xFFFFFFFF) ∧
    (first_frame (fun i => if i = 0 then 0xFFFFFFFF else 5) 96 ≠ -1 →
      ∃ k, k < 32 * (96 / 32) ∧
        bitset_bit (fun i => if i = 0 then 0xFFFFFFFF else 5) k = false ∧
        (∀ k', k' < k → bitset_bit (fun i => if i = 0 then 0xFFFFFFFF else 5) k' = true) ∧
        (∀ i, i < k / 32 → (fun i => if i = 0 then 0xFFFFFFFF else 5) i = 0xFFFFFFFF) ∧
        (fun i => if i = 0 then 0xFFFFFFFF else 5) (k / 32) ≠ 0xFFFFFFFF ∧
        toU32 (first_frame (fun i => if i = 0 then 0xFFFFFFFF else 5) 96) = k ∧
        (k < 2 ^ 31 →
          first_frame (fun i => if i = 0 then 0xFFFFFFFF else 5) 96 = (k : Int))) :=
  first_frame_returns_least_clear (fun i => if i = 0 then 0xFFFFFFFF else 5) 96
    (by intro i; by_cases h : i = 0 <;> simp [h]) (by decide)

/-- Counterexample to C1 as stated: with `nframes = 2 ^ 31 + 32` and the first
`2 ^ 26` words full, the smallest clear bit index is `2 ^ 31`, yet the `s32int`
value returned is `-2147483648`, which is not that index. -/
theorem first_frame_index_beyond_s32 :
    WordsU32 (fun i => if i < 67108864 then 0xFFFFFFFF else 0) ∧
    (2147483680 : Nat) < 2 ^ 32 ∧
    bitset_bit (fun i => if i < 67108864 then 0xFFFFFFFF else 0) 2147483648 = false ∧
    (∀ k', k' < 2147483648 →
      bitset_bit (fun i => if i < 67108864 then 0xFFFFFFFF else 0) k' = true) ∧
    first_frame (fun i => if i < 67108864 then 0xFFFFFFFF else 0) 2147483680 = -2147483648 ∧
    first_frame (fun i => if i < 67108864 then 0xFFFFFFFF else 0) 2147483680
      ≠ ((2147483648 : Nat) : Int) := by
  have hret : first_frame (fun i => if i < 67108864 then 0xFFFFFFFF else 0) 2147483680
      = -2147483648 := by
    unfold first_frame INDEX_FROM_BIT
    have h := first_frame_words_found (fun i => if i < 67108864 then 0xFFFFFFFF else 0)
      67108864 0 (2147483680 / 32) 0 (Nat.zero_le _) (by norm_num)
      (fun i' _ h2 => by simp only [h2, if_true]) (by norm_num) (by decide)
    rw [h]
    decide
  refine ⟨?_, by norm_num, ?_, ?_, hret, ?_⟩
  · intro i
    by_cases h : i < 67108864 <;> simp only [h, if_true, if_false] <;> norm_num
  · decide
  · intro k' hk'
    unfold bitset_bit INDEX_FROM_BIT OFFSET_FROM_BIT
    have h1 : k' / 32 < 67108864 := by omega
    simp only [h1, if_true]
    exact full_word_testBit _ (Nat.mod_lt _ (by decide))
  · rw [hret]; decide

/-! ## C2: `alloc_frame_identity` on an unmapped entry -/

/-- C2 (as amended). With at most `2 ^ 20` frames (every frame index fits the 20-bit frame
field; `init_paging` sets `nframes = 0xC1000`), for an entry whose frame field
is `0` and a bitset of 32-bit words with a clear bit among the scanned words,
`alloc_frame_identity` returns; the entry then holds the index `f` that
`first_frame` returned, bit `f` (clear before) is set and no other bit of the
bitset has changed, `present = 1`, `rw = 1` iff `isWriteable` is non-zero and
`user = 1` iff `isKernel` is zero. -/
theorem alloc_frame_identity_installs_first_frame (s : KernelState)
    (page isKernel isWriteable : Nat)
    (hw : WordsU32 s.frames) (hn : s.nframes ≤ 2 ^ 20)
    (hfree : (s.pages page).frame = 0)
    (hclear : ∃ k, k < 32 * (s.nframes / 32) ∧ bitset_bit s.frames k = false) :
    ∃ (f : Nat) (s1 : KernelState), first_frame s.frames s.nframes = (f : Int) ∧
      alloc_frame_identity s page isKernel isWriteable = Outcome.returned s1 ∧
      (s1.pages page).frame = f ∧
      bitset_bit s.frames f = false ∧ bitset_bit s1.frames f = true ∧
      (∀ i j, (i ≠ f / 32 ∨ j ≠ f % 32) →
        (s1.frames i).testBit j = (s.frames i).testBit j) ∧
      (s1.pages page).present = 1 ∧
      ((s1.pages page).rw = 1 ↔ isWriteable ≠ 0) ∧
      ((s1.pages page).user = 1 ↔ isKernel = 0) := by
  obtain ⟨f, hf, hret, hclr, _⟩ := first_frame_of_clear s.frames s.nframes hw hclear
  have hf20 : f < 2 ^ 20 := by omega
  rw [Nat.mod_eq_of_lt (by omega)] at hret
  refine ⟨f, _, ?_, alloc_frame_identity_eq s page isKernel isWriteable f hf20 hret hfree,
    ?_, hclr, ?_, ?_, ?_, ?_, ?_⟩
  · rw [hret]; exact toS32_of_lt f (by omega)
  · simp
  · simp only [bitset_bit, INDEX_FROM_BIT, OFFSET_FROM_BIT, Function.update_same,
      testBit_or_one_shiftLeft, decide_True, Bool.or_true]
  · intro i j hij
    by_cases hi : i = f / 32
    · subst hi
      have hj : f % 32 ≠ j := by
        rcases hij with h | h
        · exact absurd rfl h
        · exact fun h2 => h h2.symm
      simp only [Function.update_same, testBit_or_one_shiftLeft, hj, decide_False,
        Bool.or_false]
    · simp only [Function.update_noteq hi]
  · simp
  · by_cases h : isWriteable = 0 <;> simp [h]
  · by_cases h : isKernel = 0 <;> simp [h]

/-- Witness for C2: the first allocation from the all-zero bitset over 64 frames,
for the entry at address `0x1000`, writable and user-accessible. -/
theorem alloc_frame_identity_installs_first_frame_witness :
    ∃ (f : Nat) (s1 : KernelState),
      first_frame (initial_state 64).frames (initial_state 64).nframes = (f : Int) ∧
      alloc_frame_identity (initial_state 64) 0x1000 0 1 = Outcome.returned s1 ∧
      (s1.pages 0x1000).frame = f ∧
      bitset_bit (initial_state 64).frames f = false ∧ bitset_bit s1.frames f = true ∧
      (∀ i j, (i ≠ f / 32 ∨ j ≠ f % 32) →
        (s1.frames i).testBit j = ((initial_state 64).frames i).testBit j) ∧
      (s1.pages 0x1000).present = 1 ∧
      ((s1.pages 0x1000).rw = 1 ↔ 1 ≠ 0) ∧
      ((s1.pages 0x1000).user = 1 ↔ 0 = 0) :=
  alloc_frame_identity_installs_first_frame (initial_state 64) 0x1000 0 1
    (fun _ => by simp [initial_state]) (by decide) rfl ⟨0, by decide, by decide⟩

/-- Counterexample to C2 as stated: with `nframes = 2 ^ 20 + 32` and the first
`2 ^ 20` frames in use, the entry at `0x1000` is unmapped and bit `2 ^ 20` is
clear among the scanned words, `first_frame` returns `f = 1048576`, and
`alloc_frame_identity` returns; but `f * 0x1000` wraps to `0` in 32 bits and
the 20-bit frame field keeps `f % 2 ^ 20 = 0`: the entry's frame field is `0`,
not `f`, and bit `f` of the bitset is still clear. -/
theorem alloc_frame_identity_beyond_frame_field :
    WordsU32 beyond_frame_field_state.frames ∧
    (beyond_frame_field_state.pages 0x1000).frame = 0 ∧
    (1048576 < 32 * (beyond_frame_field_state.nframes / 32) ∧
      bitset_bit beyond_frame_field_state.frames 1048576 = false) ∧
    first_frame beyond_frame_field_state.frames beyond_frame_field_state.nframes
      = ((1048576 : Nat) : Int) ∧
    ∃ s1, alloc_frame_identity beyond_frame_field_state 0x1000 0 1 = Outcome.returned s1 ∧
      (s1.pages 0x1000).frame = 0 ∧
      (s1.pages 0x1000).frame ≠ 1048576 ∧
      bitset_bit s1.frames 1048576 = false := by
  have hret : first_frame beyond_frame_field_state.frames beyond_frame_field_state.nframes
      = ((1048576 : Nat) : Int) := by
    unfold first_frame INDEX_FROM_BIT
    have h := first_frame_words_found beyond_frame_field_state.frames
      32768 0 (beyond_frame_field_state.nframes / 32) 0 (Nat.zero_le _) (by decide)
      (fun i' _ h2 => by simp only [beyond_frame_field_state, h2, if_true])
      (by decide) (by decide)
    rw [h]
    decide
  have hu : toU32 (first_frame beyond_frame_field_state.frames
      beyond_frame_field_state.nframes) = 1048576 := by
    rw [hret]
    decide
  have halloc : alloc_frame_identity beyond_frame_field_state 0x1000 0 1 =
      Outcome.returned { beyond_frame_field_state with
        frames := set_frame beyond_frame_field_state.frames 0,
        pages := Function.update beyond_frame_field_state.pages 0x1000
          ⟨1, 1, 1, 0, 0, 0, 0⟩ } := by
    unfold alloc_frame_identity
    rw [if_neg (by decide)]
    simp only [hu]
    rw [if_neg (by decide)]
    rfl
  refine ⟨?_, by decide, ⟨by decide, by decide⟩, hret, _, halloc, by decide, by decide,
    by decide⟩
  intro i
  by_cases h : i < 32768 <;> simp only [beyond_frame_field_state, h, if_true, if_false] <;>
    norm_num

/-! ## C3: the bitset along runs of allocator calls -/

/-- C3 (as amended). From an all-zero bitset and entries that are all unmapped,
with at most `2 ^ 20` frames, every finite sequence of `alloc_frame_identity`
calls no longer than the number of scanned bits (so a free frame is always
available) returns, and afterwards the number of bits set equals the number
of allocations performed (none is freed); for every `i ≥ 1`, bit `i` is set
iff frame `i` is currently assigned to some page entry; bit `0` is set iff
an allocation has been performed. -/
theorem alloc_runs_bits_match_allocations (s0 : KernelState) (ops : List FrameOp)
    (hn : s0.nframes ≤ 2 ^ 20) (h0 : ∀ i, s0.frames i = 0)
    (hp : ∀ p, (s0.pages p).frame = 0)
    (hops : ∀ op, op ∈ ops → ∃ p k w, op = FrameOp.alloc p k w)
    (hroom : ops.length ≤ 32 * (s0.nframes / 32)) :
    ∃ s l, run_ops s0 ⟨0, 0⟩ ops = (Outcome.returned s, l) ∧ l.freed = 0 ∧
      bits_set s.frames (s0.nframes / 32) = l.allocated - l.freed ∧
      (∀ i, 1 ≤ i → (bitset_bit s.frames i = true ↔ assigned s i)) ∧
      (bitset_bit s.frames 0 = true ↔ 0 < l.allocated) := by
  obtain ⟨s, l, hrun, _, hinv, hfreed, hcount⟩ :=
    AllocInv_run s0.nframes hn ops s0 ⟨0, 0⟩ rfl (AllocInv_initial s0 h0 hp) hops
      (by simpa using hroom)
  obtain ⟨_, hbits, hpages, hheld⟩ := hinv
  have hfr : l.freed = 0 := hfreed
  refine ⟨s, l, hrun, hfr, ?_, ?_, ?_⟩
  · rw [hfr, Nat.sub_zero]
    exact bits_set_of_prefix s.frames l.allocated _ hbits (by simp at hcount; omega)
  · intro i hi
    rw [hbits i]
    constructor
    · intro h
      exact hheld i hi (by simpa using h)
    · rintro ⟨p, _, hp2⟩
      have := (hpages p (by omega)).1
      simp only [decide_eq_true_eq]
      omega
  · rw [hbits 0]
    simp

/-- Witness for C3: two allocations from the all-zero bitset over 64 frames. -/
theorem alloc_runs_bits_match_allocations_witness :
    ∃ s l, run_ops (initial_state 64) ⟨0, 0⟩
        [FrameOp.alloc 0x1000 1 1, FrameOp.alloc 0x1004 1 1] = (Outcome.returned s, l) ∧
      l.freed = 0 ∧
      bits_set s.frames ((initial_state 64).nframes / 32) = l.allocated - l.freed ∧
      (∀ i, 1 ≤ i → (bitset_bit s.frames i = true ↔ assigned s i)) ∧
      (bitset_bit s.frames 0 = true ↔ 0 < l.allocated) :=
  alloc_runs_bits_match_allocations (initial_state 64)
    [FrameOp.alloc 0x1000 1 1, FrameOp.alloc 0x1004 1 1]
    (by decide) (fun _ => rfl) (fun _ => rfl)
    (by
      intro op hop
      simp only [List.mem_cons, List.mem_singleton, List.not_mem_nil, or_false] at hop
      rcases hop with h | h
      · exact ⟨_, _, _, h⟩
      · exact ⟨_, _, _, h⟩)
    (by decide)

/-- Counterexample to C3 as stated, from the all-zero bitset over 64 frames.
Allocating twice for the same entry (it received frame `0`, which reads as
unmapped) leaves bit `0` set while no present entry holds frame `0`. After
three allocations for three entries and `free_frame` on the second and the
third, three frames were allocated and two freed, yet two bits are set, and
bit `1` is set while no entry holds frame `1`. -/
theorem bitset_out_of_step_with_entries :
    (bitset_bit (run_ops (initial_state 64) ⟨0, 0⟩
        [FrameOp.alloc 0x1000 1 1, FrameOp.alloc 0x1000 1 1]).1.state.frames 0 = true ∧
      ¬ assigned (run_ops (initial_state 64) ⟨0, 0⟩
        [FrameOp.alloc 0x1000 1 1, FrameOp.alloc 0x1000 1 1]).1.state 0) ∧
    ((run_ops (initial_state 64) ⟨0, 0⟩
        [FrameOp.alloc 0x1000 1 1, FrameOp.alloc 0x1004 1 1, FrameOp.alloc 0x1008 1 1,
          FrameOp.free 0x1004, FrameOp.free 0x1008]).2 = ⟨3, 2⟩ ∧
      bits_set (run_ops (initial_state 64) ⟨0, 0⟩
        [FrameOp.alloc 0x1000 1 1, FrameOp.alloc 0x1004 1 1, FrameOp.alloc 0x1008 1 1,
          FrameOp.free 0x1004, FrameOp.free 0x1008]).1.state.frames 2 = 2 ∧
      bitset_bit (run_ops (initial_state 64) ⟨0, 0⟩
        [FrameOp.alloc 0x1000 1 1, FrameOp.alloc 0x1004 1 1, FrameOp.alloc 0x1008 1 1,
          FrameOp.free 0x1004, FrameOp.free 0x1008]).1.state.frames 1 = true ∧
      ¬ assigned (run_ops (initial_state 64) ⟨0, 0⟩
        [FrameOp.alloc 0x1000 1 1, FrameOp.alloc 0x1004 1 1, FrameOp.alloc 0x1008 1 1,
          FrameOp.free 0x1004, FrameOp.free 0x1008]).1.state 1) := by
  have hA : (run_ops (initial_state 64) ⟨0, 0⟩
      [FrameOp.alloc 0x1000 1 1, FrameOp.alloc 0x1000 1 1]).1.state.pages =
      Function.update (Function.update (fun _ => zero_page) 0x1000 ⟨1, 1, 0, 0, 0, 0, 0⟩)
        0x1000 ⟨1, 1, 0, 0, 0, 0, 1⟩ := rfl
  have hB : (run_ops (initial_state 64) ⟨0, 0⟩
      [FrameOp.alloc 0x1000 1 1, FrameOp.alloc 0x1004 1 1, FrameOp.alloc 0x1008 1 1,
        FrameOp.free 0x1004, FrameOp.free 0x1008]).1.state.pages =
      Function.update (Function.update (Function.update (Function.update (Function.update
        (fun _ => zero_page) 0x1000 ⟨1, 1, 0, 0, 0, 0, 0⟩) 0x1004 ⟨1, 1, 0, 0, 0, 0, 1⟩)
        0x1008 ⟨1, 1, 0, 0, 0, 0, 2⟩) 0x1004 ⟨1, 1, 0, 0, 0, 0, 0⟩)
        0x1008 ⟨1, 1, 0, 0, 0, 0, 0⟩ := rfl
  refine ⟨⟨by decide, ?_⟩, by decide, by decide, by decide, ?_⟩
  · rintro ⟨q, h1, h2⟩
    rw [hA] at h1 h2
    by_cases hq : q = 0x1000
    · subst hq
      simp at h2
    · simp [Function.update_noteq hq, zero_page] at h1
  · rintro ⟨q, h1, h2⟩
    rw [hB] at h1 h2
    by_cases hq8 : q = 0x1008
    · subst hq8
      simp at h2
    · by_cases hq4 : q = 0x1004
      · subst hq4
        simp at h2
      · by_cases hq0 : q = 0x1000
        · subst hq0
          simp at h2
        · simp [Function.update_noteq hq8, Function.update_noteq hq4,
            Function.update_noteq hq0, zero_page] at h2

/-! ## C4: `free_frame` -/

/-- C4, the code at a failing input. With `nframes = 0xC1000` and an all-zero
bitset, two entries are mapped by `alloc_frame_identity`; the second, at
`0x1004`, holds frame `1` and bit `1` is set. After `free_frame` on it the
frame field is `0`, but bit `1` is still set and it is bit `0`, the bit of
the frame the first entry holds, that has been cleared: `clear_frame`
received the frame index where it expects a frame address. -/
theorem free_frame_clears_wrong_bit :
    ((run_ops (initial_state 0xC1000) ⟨0, 0⟩
        [FrameOp.alloc 0x1000 1 1, FrameOp.alloc 0x1004 1 1]).1.state.pages 0x1004).frame = 1 ∧
    bitset_bit (run_ops (initial_state 0xC1000) ⟨0, 0⟩
        [FrameOp.alloc 0x1000 1 1, FrameOp.alloc 0x1004 1 1]).1.state.frames 1 = true ∧
    bitset_bit (run_ops (initial_state 0xC1000) ⟨0, 0⟩
        [FrameOp.alloc 0x1000 1 1, FrameOp.alloc 0x1004 1 1]).1.state.frames 0 = true ∧
    ((free_frame (run_ops (initial_state 0xC1000) ⟨0, 0⟩
        [FrameOp.alloc 0x1000 1 1, FrameOp.alloc 0x1004 1 1]).1.state 0x1004).pages 0x1004).frame
      = 0 ∧
    bitset_bit (free_frame (run_ops (initial_state 0xC1000) ⟨0, 0⟩
        [FrameOp.alloc 0x1000 1 1, FrameOp.alloc 0x1004 1 1]).1.state 0x1004).frames 1 = true ∧
    bitset_bit (free_frame (run_ops (initial_state 0xC1000) ⟨0, 0⟩
        [FrameOp.alloc 0x1000 1 1, FrameOp.alloc 0x1004 1 1]).1.state 0x1004).frames 0 = false := by
  decide

/-! ## C5: `alloc_frame_virtual` -/

/-- C5, the code at a failing input. With `nframes = 0xC1000`, an all-zero bitset
and an unmapped entry, `alloc_frame_virtual` for the physical address
`0x100000` returns with frame number `8` in the entry, not `0x100000 / 4096 = 256`,
and with bit `0` of the bitset set while bit `256` is still clear. -/
theorem alloc_frame_virtual_wrong_frame :
    (((alloc_frame_virtual (initial_state 0xC1000) 0x1000 0x100000 0 0).state.pages 0x1000).frame
      = 8) ∧
    0x100000 / 4096 = 256 ∧
    bitset_bit (alloc_frame_virtual (initial_state 0xC1000) 0x1000 0x100000 0 0).state.frames 256
      = false ∧
    bitset_bit (alloc_frame_virtual (initial_state 0xC1000) 0x1000 0x100000 0 0).state.frames 0
      = true ∧
    (∃ s1, alloc_frame_virtual (initial_state 0xC1000) 0x1000 0x100000 0 0
      = Outcome.returned s1) := by
  refine ⟨by decide, by decide, by decide, by decide, ?_⟩
  exact ⟨_, rfl⟩

/-! ## C6: lookup after creation -/

/-- C6. For every address and directory, when the allocator hands `get_page` a
non-null block, `get_page(a, 1, dir)` returns a non-null entry reference, the
entry at offset `(a / 4096) % 1024` of the table that slot `a / 4096 / 1024`
of the resulting directory owns, and a `get_page(a, 0, dir)` made afterwards
returns that same entry reference and leaves the directory (and the page
store) as the first call left them. -/
theorem get_page_lookup_after_make (a : Nat) (dir : page_directory_t) (s : KernelState)
    (block tmp block2 tmp2 : Nat) (hblock : block ≠ 0) :
    (get_page a 1 dir s block tmp).1 ≠ 0 ∧
    (get_page a 1 dir s block tmp).2.1.tables (a / 4096 / 1024) ≠ 0 ∧
    (get_page a 1 dir s block tmp).1 =
      (get_page a 1 dir s block tmp).2.1.tables (a / 4096 / 1024)
        + 4 * ((a / 4096) % 1024) ∧
    (get_page a 0 (get_page a 1 dir s block tmp).2.1 (get_page a 1 dir s block tmp).2.2
        block2 tmp2).1 = (get_page a 1 dir s block tmp).1 ∧
    get_page a 0 (get_page a 1 dir s block tmp).2.1 (get_page a 1 dir s block tmp).2.2
        block2 tmp2
      = ((get_page a 1 dir s block tmp).1, (get_page a 1 dir s block tmp).2.1,
          (get_page a 1 dir s block tmp).2.2) := by
  by_cases hslot : dir.tables (a / 0x1000 / 1024) = 0
  · have h1 : get_page a 1 dir s block tmp =
        (block + 4 * (a / 0x1000 % 1024),
          { dir with
            tables := Function.update dir.tables (a / 0x1000 / 1024) block,
            tablesPhysical := Function.update dir.tablesPhysical (a / 0x1000 / 1024)
              (tmp ||| 0x7) },
          { s with pages := custom_memset_zero s.pages block 0x1000 }) := by
      unfold get_page
      simp [hslot]
    have h2 : get_page a 0
        { dir with
          tables := Function.update dir.tables (a / 0x1000 / 1024) block,
          tablesPhysical := Function.update dir.tablesPhysical (a / 0x1000 / 1024)
            (tmp ||| 0x7) }
        { s with pages := custom_memset_zero s.pages block 0x1000 } block2 tmp2 =
        (block + 4 * (a / 0x1000 % 1024),
          { dir with
            tables := Function.update dir.tables (a / 0x1000 / 1024) block,
            tablesPhysical := Function.update dir.tablesPhysical (a / 0x1000 / 1024)
              (tmp ||| 0x7) },
          { s with pages := custom_memset_zero s.pages block 0x1000 }) := by
      unfold get_page
      simp [hblock]
    rw [h1]
    dsimp only
    rw [h2]
    refine ⟨by omega, ?_, ?_, rfl, rfl⟩
    · rw [Function.update_same]
      exact hblock
    · rw [Function.update_same]
  · have h1 : get_page a 1 dir s block tmp =
        (dir.tables (a / 0x1000 / 1024) + 4 * (a / 0x1000 % 1024), dir, s) := by
      unfold get_page
      simp [hslot]
    have h2 : get_page a 0 dir s block2 tmp2 =
        (dir.tables (a / 0x1000 / 1024) + 4 * (a / 0x1000 % 1024), dir, s) := by
      unfold get_page
      simp [hslot]
    rw [h1]
    dsimp only
    rw [h2]
    exact ⟨by omega, hslot, rfl, rfl, rfl⟩

/-- Witness for C6: address `0x00401000` in an empty directory, the allocator
handing out the block at `0xC0200000` with physical address `0x200000`. -/
theorem get_page_lookup_after_make_witness :
    (0xC0200000 : Nat) ≠ 0 ∧
    (get_page 0x00401000 1 empty_dir (initial_state 64) 0xC0200000 0x200000).1 ≠ 0 ∧
    (get_page 0x00401000 1 empty_dir (initial_state 64) 0xC0200000 0x200000).2.1.tables
      (0x00401000 / 4096 / 1024) ≠ 0 ∧
    (get_page 0x00401000 1 empty_dir (initial_state 64) 0xC0200000 0x200000).1 =
      (get_page 0x00401000 1 empty_dir (initial_state 64) 0xC0200000 0x200000).2.1.tables
          (0x00401000 / 4096 / 1024)
        + 4 * ((0x00401000 / 4096) % 1024) ∧
    (get_page 0x00401000 0
        (get_page 0x00401000 1 empty_dir (initial_state 64) 0xC0200000 0x200000).2.1
        (get_page 0x00401000 1 empty_dir (initial_state 64) 0xC0200000 0x200000).2.2
        0 0).1
      = (get_page 0x00401000 1 empty_dir (initial_state 64) 0xC0200000 0x200000).1 ∧
    get_page 0x00401000 0
        (get_page 0x00401000 1 empty_dir (initial_state 64)
          0xC0200000 0x200000).2.1
        (get_page 0x00401000 1 empty_dir (initial_state 64)
          0xC0200000 0x200000).2.2 0 0
      = ((get_page 0x00401000 1 empty_dir (initial_state 64)
            0xC0200000 0x200000).1,
          (get_page 0x00401000 1 empty_dir (initial_state 64)
            0xC0200000 0x200000).2.1,
          (get_page 0x00401000 1 empty_dir (initial_state 64)
            0xC0200000 0x200000).2.2) :=
  ⟨by decide, get_page_lookup_after_make 0x00401000 empty_dir (initial_state 64)
    0xC0200000 0x200000 0 0 (by decide)⟩

/-! ## C7: which entry `get_page` returns -/

theorem get_page_lookup_fst (a : Nat) (dir : page_directory_t) (s : KernelState)
    (block tmp : Nat) :
    (get_page a 0 dir s block tmp).1 =
      if dir.tables (a / 0x1000 / 1024) ≠ 0 then
        dir.tables (a / 0x1000 / 1024) + 4 * (a / 0x1000 % 1024)
      else 0 := by
  unfold get_page
  by_cases h : dir.tables (a / 0x1000 / 1024) = 0 <;> simp [h]

/-- C7. For every 32-bit address `a`, the directory slot `a / 4096 / 1024` and
the entry offset `(a / 4096) % 1024` are both below 1024; the entry `get_page`
returns, when it returns one, is the entry at that offset of the table in
that slot of the resulting directory; and in a directory whose tables do not
overlap, two 32-bit addresses that both resolve do so to the same entry iff
they lie in the same 4 KiB page. -/
theorem get_page_entry_location (a make : Nat) (dir : page_directory_t) (s : KernelState)
    (block tmp : Nat) (ha : a < 2 ^ 32) :
    a / 4096 / 1024 < 1024 ∧ (a / 4096) % 1024 < 1024 ∧
    ((get_page a make dir s block tmp).1 ≠ 0 →
      (get_page a make dir s block tmp).1 =
        (get_page a make dir s block tmp).2.1.tables (a / 4096 / 1024)
          + 4 * ((a / 4096) % 1024)) ∧
    (∀ b block2 tmp2, b < 2 ^ 32 → OwnsTables dir →
      (get_page a 0 dir s block tmp).1 ≠ 0 → (get_page b 0 dir s block2 tmp2).1 ≠ 0 →
      ((get_page a 0 dir s block tmp).1 = (get_page b 0 dir s block2 tmp2).1 ↔
        a / 4096 = b / 4096)) := by
  refine ⟨by omega, Nat.mod_lt _ (by decide), ?_, ?_⟩
  · intro hne
    unfold get_page at hne ⊢
    by_cases hslot : dir.tables (a / 0x1000 / 1024) = 0
    · by_cases hmake : make = 0
      · simp [hslot, hmake] at hne
      · simp [hslot, hmake]
    · simp [hslot]
  · intro b block2 tmp2 hb hown hra hrb
    rw [get_page_lookup_fst] at hra hrb ⊢
    rw [get_page_lookup_fst]
    by_cases hsa : dir.tables (a / 0x1000 / 1024) = 0
    · simp [hsa] at hra
    · by_cases hsb : dir.tables (b / 0x1000 / 1024) = 0
      · simp [hsb] at hrb
      · rw [if_pos hsa, if_pos hsb]
        constructor
        · intro heq
          by_cases hij : a / 0x1000 / 1024 = b / 0x1000 / 1024
          · rw [hij] at heq
            omega
          · have := hown (a / 0x1000 / 1024) (b / 0x1000 / 1024) (by omega) (by omega) hij
              hsa hsb
            omega
        · intro heq
          have h1 : a / 0x1000 = b / 0x1000 := heq
          rw [h1]

theorem two_table_dir_owns : OwnsTables two_table_dir := by
  intro i j _ _ hij hi hj
  simp only [two_table_dir] at hi hj ⊢
  by_cases hi1 : i = 1
  · by_cases hj2 : j = 2
    · subst hi1; subst hj2; decide
    · by_cases hj1 : j = 1
      · omega
      · simp [hj1, hj2] at hj
  · by_cases hi2 : i = 2
    · by_cases hj1 : j = 1
      · subst hi2; subst hj1; decide
      · by_cases hj2 : j = 2
        · omega
        · simp [hj1, hj2] at hj
    · simp [hi1, hi2] at hi

/-- Witness for C7: addresses `0x00401234` and `0x00401FFF` (same page) looked up
in a directory whose slots 1 and 2 own the tables at `0xC0200000` and
`0xC0201000`. -/
theorem get_page_entry_location_witness :
    (0x00401234 < 2 ^ 32 ∧ 0x00401FFF < 2 ^ 32) ∧
    0x00401234 / 4096 / 1024 < 1024 ∧ (0x00401234 / 4096) % 1024 < 1024 ∧
    (get_page 0x00401234 0 two_table_dir (initial_state 64) 0 0).1 =
      (get_page 0x00401234 0 two_table_dir (initial_state 64) 0 0).2.1.tables
          (0x00401234 / 4096 / 1024)
        + 4 * ((0x00401234 / 4096) % 1024) ∧
    ((get_page 0x00401234 0 two_table_dir (initial_state 64) 0 0).1 =
      (get_page 0x00401FFF 0 two_table_dir (initial_state 64) 0 0).1 ↔
      0x00401234 / 4096 = 0x00401FFF / 4096) :=
  ⟨⟨by decide, by decide⟩,
    (get_page_entry_location 0x00401234 0 two_table_dir (initial_state 64) 0 0 (by decide)).1,
    (get_page_entry_location 0x00401234 0 two_table_dir (initial_state 64) 0 0 (by decide)).2.1,
    (get_page_entry_location 0x00401234 0 two_table_dir (initial_state 64) 0 0
      (by decide)).2.2.1 (by decide),
    (get_page_entry_location 0x00401234 0 two_table_dir (initial_state 64) 0 0
      (by decide)).2.2.2 0x00401FFF 0 0 (by decide) two_table_dir_owns (by decide) (by decide)⟩

/-! ## C8: lookups without creation -/

/-- C8. For every address and directory, `get_page(a, 0, dir)` returns null iff
slot `a / 4096 / 1024` of the directory owns no table, and in every case it
leaves the table-pointer array and the `tablesPhysical` array unchanged. -/
theorem get_page_lookup_null_iff (a : Nat) (dir : page_directory_t) (s : KernelState)
    (block tmp : Nat) :
    ((get_page a 0 dir s block tmp).1 = 0 ↔ dir.tables (a / 4096 / 1024) = 0) ∧
    (get_page a 0 dir s block tmp).2.1.tables = dir.tables ∧
    (get_page a 0 dir s block tmp).2.1.tablesPhysical = dir.tablesPhysical := by
  unfold get_page
  by_cases hslot : dir.tables (a / 0x1000 / 1024) = 0
  · simp [hslot]
  · simp [hslot]

/-! ## C9: the directory invariant -/

/-- C9. If the directory invariant holds before `get_page(a, make, dir)` and the
allocator hands out a non-null block whose physical address `tmp` is a 4 KiB
aligned `u32int`, the invariant holds afterwards for every slot; a slot
created by the call has `tablesPhysical = tmp | 0x7` and a table whose 1024
entries are all zero; every slot other than `a / 4096 / 1024` is unchanged. -/
theorem get_page_preserves_directory_invariant (physOf : Nat → Nat) (a make : Nat)
    (dir : page_directory_t) (s : KernelState) (block tmp : Nat)
    (hinv : DirectoryInvariant physOf dir) (hblock : block ≠ 0)
    (htmp : tmp < 2 ^ 32) (halign : tmp % 0x1000 = 0) (hphys : physOf block = tmp) :
    DirectoryInvariant physOf (get_page a make dir s block tmp).2.1 ∧
    (dir.tables (a / 4096 / 1024) = 0 → make ≠ 0 →
      (get_page a make dir s block tmp).2.1.tables (a / 4096 / 1024) = block ∧
      (get_page a make dir s block tmp).2.1.tablesPhysical (a / 4096 / 1024) = tmp ||| 0x7 ∧
      ∀ k, k < 1024 →
        (get_page a make dir s block tmp).2.2.pages
          ((get_page a make dir s block tmp).2.1.tables (a / 4096 / 1024) + 4 * k)
            = zero_page) ∧
    (∀ i, i ≠ a / 4096 / 1024 →
      (get_page a make dir s block tmp).2.1.tables i = dir.tables i ∧
      (get_page a make dir s block tmp).2.1.tablesPhysical i = dir.tablesPhysical i) := by
  by_cases hslot : dir.tables (a / 0x1000 / 1024) = 0
  · by_cases hmake : make = 0
    · have h1 : get_page a make dir s block tmp = (0, dir, s) := by
        unfold get_page
        simp [hslot, hmake]
      rw [h1]
      exact ⟨hinv, fun _ h => absurd hmake h, fun i _ => ⟨rfl, rfl⟩⟩
    · have h1 : get_page a make dir s block tmp =
          (block + 4 * (a / 0x1000 % 1024),
            { dir with
              tables := Function.update dir.tables (a / 0x1000 / 1024) block,
              tablesPhysical := Function.update dir.tablesPhysical (a / 0x1000 / 1024)
                (tmp ||| 0x7) },
            { s with pages := custom_memset_zero s.pages block 0x1000 }) := by
        unfold get_page
        simp [hslot, hmake]
      rw [h1]
      refine ⟨?_, ?_, ?_⟩
      · intro i hi
        by_cases his : i = a / 0x1000 / 1024
        · subst his
          dsimp only
          rw [Function.update_same, Function.update_same]
          refine ⟨⟨fun _ => flags_word_present tmp, fun _ => hblock⟩, fun _ => ?_⟩
          rw [flags_word_masked tmp htmp halign, hphys]
        · dsimp only
          rw [Function.update_noteq his, Function.update_noteq his]
          exact hinv i hi
      · intro _ _
        dsimp only
        refine ⟨Function.update_same _ _ _, Function.update_same _ _ _, ?_⟩
        intro k hk
        rw [Function.update_same]
        unfold custom_memset_zero
        rw [if_pos ⟨by omega, by omega⟩]
      · intro i hi
        dsimp only
        exact ⟨Function.update_noteq hi _ _, Function.update_noteq hi _ _⟩
  · have h1 : get_page a make dir s block tmp =
        (dir.tables (a / 0x1000 / 1024) + 4 * (a / 0x1000 % 1024), dir, s) := by
      unfold get_page
      simp [hslot]
    rw [h1]
    exact ⟨hinv, fun h _ => absurd h hslot, fun i _ => ⟨rfl, rfl⟩⟩

theorem empty_dir_invariant (physOf : Nat → Nat) : DirectoryInvariant physOf empty_dir := by
  intro i _
  simp [empty_dir]

/-- Witness for C9: creation of the table of address `0x00401000` in the empty
directory, the allocator handing out the block at `0xC0200000` whose physical
address is `0x200000`. -/
theorem get_page_preserves_directory_invariant_witness :
    DirectoryInvariant (fun v => v - 0xC0000000)
      (get_page 0x00401000 1 empty_dir (initial_state 64) 0xC0200000 0x200000).2.1 ∧
    ((get_page 0x00401000 1 empty_dir (initial_state 64) 0xC0200000 0x200000).2.1.tables
        (0x00401000 / 4096 / 1024) = 0xC0200000 ∧
      (get_page 0x00401000 1 empty_dir (initial_state 64) 0xC0200000
        0x200000).2.1.tablesPhysical (0x00401000 / 4096 / 1024) = 0x200000 ||| 0x7 ∧
      ∀ k, k < 1024 →
        (get_page 0x00401000 1 empty_dir (initial_state 64) 0xC0200000 0x200000).2.2.pages
          ((get_page 0x00401000 1 empty_dir (initial_state 64) 0xC0200000
            0x200000).2.1.tables (0x00401000 / 4096 / 1024) + 4 * k) = zero_page) ∧
    (∀ i, i ≠ 0x00401000 / 4096 / 1024 →
      (get_page 0x00401000 1 empty_dir (initial_state 64) 0xC0200000 0x200000).2.1.tables i
        = empty_dir.tables i ∧
      (get_page 0x00401000 1 empty_dir (initial_state 64) 0xC0200000
        0x200000).2.1.tablesPhysical i = empty_dir.tablesPhysical i) :=
  ⟨(get_page_preserves_directory_invariant (fun v => v - 0xC0000000) 0x00401000 1 empty_dir
      (initial_state 64) 0xC0200000 0x200000 (empty_dir_invariant _) (by decide) (by decide)
      (by decide) (by decide)).1,
    (get_page_preserves_directory_invariant (fun v => v - 0xC0000000) 0x00401000 1 empty_dir
      (initial_state 64) 0xC0200000 0x200000 (empty_dir_invariant _) (by decide) (by decide)
      (by decide) (by decide)).2.1 (by decide) (by decide),
    (get_page_preserves_directory_invariant (fun v => v - 0xC0000000) 0x00401000 1 empty_dir
      (initial_state 64) 0xC0200000 0x200000 (empty_dir_invariant _) (by decide) (by decide)
      (by decide) (by decide)).2.2⟩

/-! ## C10: the flags of the page-fault report -/

/-- C10. For every error code `e`, what `page_fault` writes to the screen is the
heading, then exactly the decoded flags in their order ("not present" iff
bit 0 of `e` is clear, "read-only" iff bit 1 is set, "user-mode" iff bit 2,
"reserved" iff bit 3, "instruction fetch" iff bit 4), then the address lines;
and the whole effect of `page_fault` depends on `e` only through its bits
0 to 4. -/
theorem page_fault_reports_decoded_flags (s : KernelState) (e faultingAddress : Nat)
    (integer_to_string : Nat → String) :
    (page_fault s e faultingAddress integer_to_string).screen =
      s.screen ++ ["Page fault! ( "] ++ decoded_flags e ++
        [") at address = ", integer_to_string faultingAddress, "\n",
          "Creating page at address ", integer_to_string faultingAddress, "\n"] ∧
    page_fault s e faultingAddress integer_to_string =
      page_fault s (e % 32) faultingAddress integer_to_string := by
  constructor
  · have h0 : e &&& 0x1 ≠ 0 ↔ e.testBit 0 = true := and_bit_ne_zero_iff e 0
    have h1 : e &&& 0x2 ≠ 0 ↔ e.testBit 1 = true := and_bit_ne_zero_iff e 1
    have h2 : e &&& 0x4 ≠ 0 ↔ e.testBit 2 = true := and_bit_ne_zero_iff e 2
    have h3 : e &&& 0x8 ≠ 0 ↔ e.testBit 3 = true := and_bit_ne_zero_iff e 3
    have h4 : e &&& 0x10 ≠ 0 ↔ e.testBit 4 = true := and_bit_ne_zero_iff e 4
    unfold page_fault decoded_flags
    generalize e &&& 0x1 = x0 at h0 ⊢
    generalize e &&& 0x2 = x1 at h1 ⊢
    generalize e &&& 0x4 = x2 at h2 ⊢
    generalize e &&& 0x8 = x3 at h3 ⊢
    generalize e &&& 0x10 = x4 at h4 ⊢
    generalize e.testBit 0 = b0 at h0 ⊢
    generalize e.testBit 1 = b1 at h1 ⊢
    generalize e.testBit 2 = b2 at h2 ⊢
    generalize e.testBit 3 = b3 at h3 ⊢
    generalize e.testBit 4 = b4 at h4 ⊢
    cases b0 <;> cases b1 <;> cases b2 <;> cases b3 <;> cases b4 <;>
      simp at h0 h1 h2 h3 h4 <;>
      simp [print_screen, print_serial, h0, h1, h2, h3, h4]
  · have h0 : (e % 32) &&& 0x1 = e &&& 0x1 := and_bit_mod e 0 (by decide)
    have h1 : (e % 32) &&& 0x2 = e &&& 0x2 := and_bit_mod e 1 (by decide)
    have h2 : (e % 32) &&& 0x4 = e &&& 0x4 := and_bit_mod e 2 (by decide)
    have h3 : (e % 32) &&& 0x8 = e &&& 0x8 := and_bit_mod e 3 (by decide)
    have h4 : (e % 32) &&& 0x10 = e &&& 0x10 := and_bit_mod e 4 (by decide)
    unfold page_fault
    rw [h0, h1, h2, h3, h4]

/-! ## C11: two decoding examples -/

/-- C11 (as amended). Given error code `0x05`, `page_fault` reports the single
flag "user-mode" (no flag is written for a protection violation) and omits
"not present", "read-only", "reserved" and "instruction fetch"; given error
code `0x00` it reports "not present" and no other flag. -/
theorem page_fault_reports_0x05_and_0x00 (s : KernelState) (faultingAddress : Nat)
    (integer_to_string : Nat → String) :
    (page_fault s 0x05 faultingAddress integer_to_string).screen =
      s.screen ++ ["Page fault! ( ", "user-mode ", ") at address = ",
        integer_to_string faultingAddress, "\n",
        "Creating page at address ", integer_to_string faultingAddress, "\n"] ∧
    (page_fault s 0x00 faultingAddress integer_to_string).screen =
      s.screen ++ ["Page fault! ( ", "not present ", ") at address = ",
        integer_to_string faultingAddress, "\n",
        "Creating page at address ", integer_to_string faultingAddress, "\n"] := by
  have a0 : (0x05 : Nat) &&& 0x1 = 1 := by decide
  have a1 : (0x05 : Nat) &&& 0x2 = 0 := by decide
  have a2 : (0x05 : Nat) &&& 0x4 = 4 := by decide
  have a3 : (0x05 : Nat) &&& 0x8 = 0 := by decide
  have a4 : (0x05 : Nat) &&& 0x10 = 0 := by decide
  have b0 : (0x00 : Nat) &&& 0x1 = 0 := by decide
  have b1 : (0x00 : Nat) &&& 0x2 = 0 := by decide
  have b2 : (0x00 : Nat) &&& 0x4 = 0 := by decide
  have b3 : (0x00 : Nat) &&& 0x8 = 0 := by decide
  have b4 : (0x00 : Nat) &&& 0x10 = 0 := by decide
  constructor
  · unfold page_fault
    rw [a0, a1, a2, a3, a4]
    simp [print_screen, print_serial]
  · unfold page_fault
    rw [b0, b1, b2, b3, b4]
    simp [print_screen, print_serial]

/-- Counterexample to C11 as stated: for error code `0x05` and fault address
`0x1234` the screen receives the heading, the one flag "user-mode" and the
address lines; nothing written names a protection violation. -/
theorem page_fault_0x05_writes_one_flag :
    (page_fault (initial_state 64) 0x05 0x1234 (fun _ => "4660")).screen =
      ["Page fault! ( ", "user-mode ", ") at address = ", "4660", "\n",
        "Creating page at address ", "4660", "\n"] ∧
    "protection-violation " ∉
      (page_fault (initial_state 64) 0x05 0x1234 (fun _ => "4660")).screen ∧
    "protection-violation" ∉
      (page_fault (initial_state 64) 0x05 0x1234 (fun _ => "4660")).screen := by
  refine ⟨by decide, by decide, by decide⟩

/-! ## C12: the serial copy of the report -/

/-- C12, the code at a failing input. For error code `0x00` and fault address
`0x1234` the screen receives the report with the flag "not present", while
the serial port receives the heading and the address lines with no flag
between them, so the two texts differ. For every error code the serial port
receives the same six strings, none of them a flag. -/
theorem page_fault_serial_lacks_flags :
    (page_fault (initial_state 64) 0x00 0x1234 (fun _ => "4660")).screen =
      ["Page fault! ( ", "not present ", ") at address = ", "4660", "\n",
        "Creating page at address ", "4660", "\n"] ∧
    (page_fault (initial_state 64) 0x00 0x1234 (fun _ => "4660")).serial =
      ["Page fault! ( ", ") at address = ", "4660", "\n",
        "Creating page at address ", "4660", "\n"] ∧
    String.join (page_fault (initial_state 64) 0x00 0x1234 (fun _ => "4660")).serial ≠
      String.join (page_fault (initial_state 64) 0x00 0x1234 (fun _ => "4660")).screen ∧
    (∀ (s : KernelState) (e faultingAddress : Nat) (integer_to_string : Nat → String),
      (page_fault s e faultingAddress integer_to_string).serial =
        s.serial ++ ["Page fault! ( ", ") at address = ", integer_to_string faultingAddress,
          "\n", "Creating page at address ", integer_to_string faultingAddress, "\n"]) := by
  refine ⟨by decide, by decide, by decide, ?_⟩
  intro s e faultingAddress integer_to_string
  unfold page_fault
  generalize e &&& 0x1 = x0
  generalize e &&& 0x2 = x1
  generalize e &&& 0x4 = x2
  generalize e &&& 0x8 = x3
  generalize e &&& 0x10 = x4
  by_cases h0 : x0 = 0 <;> by_cases h1 : x1 = 0 <;> by_cases h2 : x2 = 0 <;>
    by_cases h3 : x3 = 0 <;> by_cases h4 : x4 = 0 <;>
    simp [print_screen, print_serial, h0, h1, h2, h3, h4]

/-! ## C13: registration of an interrupt handler -/

/-- C13. For every vector `v`, handler `h` and handler table,
`register_interrupt_handler(v, h)` returns `1` iff `v > 255`, or `v` is
`SYSCALL_INT_IDX`, or slot `v` already holds a non-null handler; when it
returns `1` the table is unchanged; otherwise it returns `0`, slot `v` holds
`h` and every other slot is unchanged. -/
theorem register_interrupt_handler_result (SYSCALL_INT_IDX : Nat)
    (interrupt_handlers : Nat → Nat) (v h : Nat) :
    ((register_interrupt_handler SYSCALL_INT_IDX interrupt_handlers v h).1 = 1 ↔
      (v > 255 ∨ v = SYSCALL_INT_IDX ∨ interrupt_handlers v ≠ 0)) ∧
    ((register_interrupt_handler SYSCALL_INT_IDX interrupt_handlers v h).1 = 1 →
      (register_interrupt_handler SYSCALL_INT_IDX interrupt_handlers v h).2
        = interrupt_handlers) ∧
    ((register_interrupt_handler SYSCALL_INT_IDX interrupt_handlers v h).1 ≠ 1 →
      (register_interrupt_handler SYSCALL_INT_IDX interrupt_handlers v h).1 = 0 ∧
      (register_interrupt_handler SYSCALL_INT_IDX interrupt_handlers v h).2 v = h ∧
      ∀ i, i ≠ v →
        (register_interrupt_handler SYSCALL_INT_IDX interrupt_handlers v h).2 i
          = interrupt_handlers i) := by
  by_cases h1 : v > 255
  · have hr : register_interrupt_handler SYSCALL_INT_IDX interrupt_handlers v h
        = (1, interrupt_handlers) := by
      unfold register_interrupt_handler
      rw [if_pos h1]
    rw [hr]
    exact ⟨⟨fun _ => Or.inl h1, fun _ => rfl⟩, fun _ => rfl, fun hne => absurd rfl hne⟩
  · by_cases h2 : v = SYSCALL_INT_IDX
    · have hr : register_interrupt_handler SYSCALL_INT_IDX interrupt_handlers v h
          = (1, interrupt_handlers) := by
        unfold register_interrupt_handler
        rw [if_neg h1, if_pos h2]
      rw [hr]
      exact ⟨⟨fun _ => Or.inr (Or.inl h2), fun _ => rfl⟩, fun _ => rfl,
        fun hne => absurd rfl hne⟩
    · by_cases h3 : interrupt_handlers v ≠ 0
      · have hr : register_interrupt_handler SYSCALL_INT_IDX interrupt_handlers v h
            = (1, interrupt_handlers) := by
          unfold register_interrupt_handler
          rw [if_neg h1, if_neg h2, if_pos h3]
        rw [hr]
        exact ⟨⟨fun _ => Or.inr (Or.inr h3), fun _ => rfl⟩, fun _ => rfl,
          fun hne => absurd rfl hne⟩
      · have hr : register_interrupt_handler SYSCALL_INT_IDX interrupt_handlers v h
            = (0, Function.update interrupt_handlers v h) := by
          unfold register_interrupt_handler
          rw [if_neg h1, if_neg h2, if_neg h3]
        rw [hr]
        have h01 : ¬ ((0 : Nat) = 1) := by decide
        refine ⟨⟨fun hh => absurd hh h01, ?_⟩, fun hh => absurd hh h01,
          fun _ => ⟨rfl, Function.update_same _ _ _, fun i hi => Function.update_noteq hi _ _⟩⟩
        rintro (h | h | h)
        · exact absurd h h1
        · exact absurd h h2
        · exact absurd h h3

/-! ## C14: exhaustion of the frame allocator -/

/-- C14. When `first_frame` returns `-1` for an entry that is unmapped (so that
the allocator is consulted), `alloc_frame_identity` and `alloc_frame_virtual`
do not return: each writes "No Free Frame, Kernel Panic" to the screen and
halts, in a state whose bitset and page entries (hence the entry's present,
rw, user and frame fields) are those before the call. -/
theorem alloc_halts_when_exhausted (s : KernelState)
    (page physicalAddress isKernel isWriteable : Nat)
    (hfull : first_frame s.frames s.nframes = -1) (hfree : (s.pages page).frame = 0) :
    alloc_frame_identity s page isKernel isWriteable
      = Outcome.halted (print_screen s "No Free Frame, Kernel Panic") ∧
    alloc_frame_virtual s page physicalAddress isKernel isWriteable
      = Outcome.halted (print_screen s "No Free Frame, Kernel Panic") ∧
    (print_screen s "No Free Frame, Kernel Panic").screen
      = s.screen ++ ["No Free Frame, Kernel Panic"] ∧
    (print_screen s "No Free Frame, Kernel Panic").frames = s.frames ∧
    (print_screen s "No Free Frame, Kernel Panic").pages = s.pages := by
  have hu : toU32 (first_frame s.frames s.nframes) = 0xFFFFFFFF := by
    rw [hfull]; decide
  refine ⟨?_, ?_, rfl, rfl, rfl⟩
  · unfold alloc_frame_identity
    rw [if_neg (by simp [hfree])]
    simp only [hu, if_true]
  · unfold alloc_frame_virtual
    rw [if_neg (by simp [hfree])]
    simp only [hu, if_true]

/-- Witness for C14: 64 frames, all in use, and the unmapped entry at `0x1000`. -/
theorem alloc_halts_when_exhausted_witness :
    (first_frame exhausted_state.frames exhausted_state.nframes = -1 ∧
      (exhausted_state.pages 0x1000).frame = 0) ∧
    alloc_frame_identity exhausted_state 0x1000 0 0
      = Outcome.halted (print_screen exhausted_state "No Free Frame, Kernel Panic") ∧
    alloc_frame_virtual exhausted_state 0x1000 0x100000 0 0
      = Outcome.halted (print_screen exhausted_state "No Free Frame, Kernel Panic") ∧
    (print_screen exhausted_state "No Free Frame, Kernel Panic").screen
      = exhausted_state.screen ++ ["No Free Frame, Kernel Panic"] ∧
    (print_screen exhausted_state "No Free Frame, Kernel Panic").frames
      = exhausted_state.frames ∧
    (print_screen exhausted_state "No Free Frame, Kernel Panic").pages
      = exhausted_state.pages :=
  ⟨⟨by decide, by decide⟩,
    alloc_halts_when_exhausted exhausted_state 0x1000 0x100000 0 0 (by decide) (by decide)⟩

/-! ## The loops of `init_paging`: entries once mapped stay as mapped -/

/-- C17, the code at a failing input. With the kernel at `0x4000` on the sample
heap the loops return. For the physical page `p = 0x4000` the relocation
loop maps the entry of virtual address `p + 0xC0100000 = 0xC0104000`, which
is present afterwards; the entry of `p + 0xC0000000 = 0xC0004000` is not
among the mapped entries and is still not present. -/
theorem relocation_loop_adds_0xC0100000 :
    ∃ out, init_paging_loops sample_heap 0x4000 1000 (boot_state 0xC1000)
        = some (Outcome.returned out) ∧
      out.2 = 0x8000 ∧
      (get_page (0x4000 + 0xC0100000) 0 out.1.dir out.1.s 0 0).1 = 0xC0401410 ∧
      0xC0401410 ∈ out.1.mapped ∧
      (out.1.s.pages 0xC0401410).present = 1 ∧
      (get_page (0x4000 + 0xC0000000) 0 out.1.dir out.1.s 0 0).1 = 0xC0401010 ∧
      0xC0401010 ∉ out.1.mapped ∧
      (out.1.s.pages 0xC0401010).present = 0 :=
  ⟨_, rfl, by decide, by decide, by decide, by decide, by decide, by decide, by decide⟩

/-! ## C18: size of the bitset -/

/-- C18, the code at a failing input. With memory holding `0xFF` in every byte
and `kmalloc` returning `0x200000`, `init_paging` sets `nframes = 0xC1000`,
asks `kmalloc` for `24705` bytes and has `custom_memset` zero `24704` bytes,
both fewer than the `4 * (nframes / 32) = 98816` bytes of the words that
`first_frame` scans; word `6175` reads `0` afterwards but word `6176`, which
is scanned, still reads `0xFFFFFFFF`. -/
theorem init_paging_bitset_too_short :
    (init_paging_bitset (fun _ => 0xFF) (fun _ => 0x200000)).nframes = 0xC1000 ∧
    (init_paging_bitset (fun _ => 0xFF) (fun _ => 0x200000)).requested = 24705 ∧
    (init_paging_bitset (fun _ => 0xFF) (fun _ => 0x200000)).zeroed = 24704 ∧
    4 * ((init_paging_bitset (fun _ => 0xFF) (fun _ => 0x200000)).nframes / 32) = 98816 ∧
    (init_paging_bitset (fun _ => 0xFF) (fun _ => 0x200000)).requested
      < 4 * ((init_paging_bitset (fun _ => 0xFF) (fun _ => 0x200000)).nframes / 32) ∧
    (init_paging_bitset (fun _ => 0xFF) (fun _ => 0x200000)).zeroed
      < 4 * ((init_paging_bitset (fun _ => 0xFF) (fun _ => 0x200000)).nframes / 32) ∧
    6176 < (init_paging_bitset (fun _ => 0xFF) (fun _ => 0x200000)).nframes / 32 ∧
    frames_word (init_paging_bitset (fun _ => 0xFF) (fun _ => 0x200000)).mem
      (init_paging_bitset (fun _ => 0xFF) (fun _ => 0x200000)).frames 6175 = 0 ∧
    frames_word (init_paging_bitset (fun _ => 0xFF) (fun _ => 0x200000)).mem
      (init_paging_bitset (fun _ => 0xFF) (fun _ => 0x200000)).frames 6176 = 0xFFFFFFFF := by
  refine ⟨by decide, by decide, by decide, by decide, by decide, by decide, by decide,
    by decide, by decide⟩

/-! ## C19: the order of the writes of `switch_page_directory` -/

/-- C19. For every directory pointer `dir` and every prior state, in particular
every prior value `c` of `cr0`, `switch_page_directory(dir)` makes exactly
three writes in this order: `g_currentDirectory = dir`, then `cr3` receives
the address of `dir`'s `tablesPhysical` array, then `cr0` receives
`c | 0x80000000`. When `cr3` is loaded the current-directory variable already
names `dir` and `cr0` still holds `c`; bit 31 of the value written to `cr0`
is set and all its other bits are those of `c`. -/
theorem switch_page_directory_order (m : PagingRegs) (dir tablesPhysical_offset : Nat) :
    (switch_page_directory m dir tablesPhysical_offset).2 =
      [(RegWrite.current_directory dir,
          { g_currentDirectory := dir, cr3 := m.cr3, cr0 := m.cr0 }),
        (RegWrite.load_cr3 (dir + tablesPhysical_offset),
          { g_currentDirectory := dir, cr3 := dir + tablesPhysical_offset, cr0 := m.cr0 }),
        (RegWrite.store_cr0 (m.cr0 ||| 0x80000000),
          { g_currentDirectory := dir, cr3 := dir + tablesPhysical_offset,
            cr0 := m.cr0 ||| 0x80000000 })] ∧
    (switch_page_directory m dir tablesPhysical_offset).1 =
      { g_currentDirectory := dir, cr3 := dir + tablesPhysical_offset,
        cr0 := m.cr0 ||| 0x80000000 } ∧
    (m.cr0 ||| 0x80000000).testBit 31 = true ∧
    (∀ i, i ≠ 31 → (m.cr0 ||| 0x80000000).testBit i = m.cr0.testBit i) := by
  refine ⟨rfl, rfl, ?_, ?_⟩
  · have h := testBit_or_one_shiftLeft m.cr0 31 31
    have h2 : (0x1 : Nat) <<< 31 = 0x80000000 := by decide
    rw [h2] at h
    rw [h]
    simp
  · intro i hi
    have h := testBit_or_one_shiftLeft m.cr0 31 i
    have h2 : (0x1 : Nat) <<< 31 = 0x80000000 := by decide
    rw [h2] at h
    rw [h]
    have h3 : ¬ (31 = i) := fun h4 => hi h4.symm
    simp [h3]

/-! ## C20: `set_frame` and `clear_frame` -/

theorem set_frame_apply (frames : Nat → Nat) (x : Nat) :
    set_frame frames x = Function.update frames (x / 4096 / 32)
      (frames (x / 4096 / 32) ||| (0x1 <<< (x / 4096 % 32))) := rfl

theorem clear_frame_apply (frames : Nat → Nat) (x : Nat) :
    clear_frame frames x = Function.update frames (x / 4096 / 32)
      (frames (x / 4096 / 32) &&& (0xFFFFFFFF - (0x1 <<< (x / 4096 % 32)))) := rfl

/-- C20. For every bitset of 32-bit words and every frame address `x`,
`set_frame(x)` sets the bit with index `x / 4096` and `clear_frame(x)` clears
it, each leaving every other bit unchanged and the words 32 bits wide; each
is idempotent; and `clear_frame(x)` after `set_frame(x)` gives back the
original bitset when that bit was clear. -/
theorem set_clear_frame_one_bit (frames : Nat → Nat) (x : Nat) (hw : WordsU32 frames) :
    (bitset_bit (set_frame frames x) (x / 4096) = true ∧
      ∀ k, k ≠ x / 4096 → bitset_bit (set_frame frames x) k = bitset_bit frames k) ∧
    (bitset_bit (clear_frame frames x) (x / 4096) = false ∧
      ∀ k, k ≠ x / 4096 → bitset_bit (clear_frame frames x) k = bitset_bit frames k) ∧
    (WordsU32 (set_frame frames x) ∧ WordsU32 (clear_frame frames x)) ∧
    set_frame (set_frame frames x) x = set_frame frames x ∧
    clear_frame (clear_frame frames x) x = clear_frame frames x ∧
    (bitset_bit frames (x / 4096) = false →
      clear_frame (set_frame frames x) x = frames) := by
  have hoff : x / 4096 % 32 < 32 := Nat.mod_lt _ (by decide)
  refine ⟨⟨?_, ?_⟩, ⟨?_, ?_⟩, ⟨?_, ?_⟩, ?_, ?_, ?_⟩
  · rw [set_frame_apply]
    unfold bitset_bit INDEX_FROM_BIT OFFSET_FROM_BIT
    rw [Function.update_same, testBit_or_one_shiftLeft]
    simp
  · intro k hk
    rw [set_frame_apply]
    unfold bitset_bit INDEX_FROM_BIT OFFSET_FROM_BIT
    by_cases hi : k / 32 = x / 4096 / 32
    · rw [hi, Function.update_same, testBit_or_one_shiftLeft]
      have : ¬ (x / 4096 % 32 = k % 32) := by omega
      simp [this]
    · rw [Function.update_noteq hi]
  · rw [clear_frame_apply]
    unfold bitset_bit INDEX_FROM_BIT OFFSET_FROM_BIT
    rw [Function.update_same, testBit_and_not_one_shiftLeft _ _ _ hoff]
    simp
  · intro k hk
    rw [clear_frame_apply]
    unfold bitset_bit INDEX_FROM_BIT OFFSET_FROM_BIT
    by_cases hi : k / 32 = x / 4096 / 32
    · rw [hi, Function.update_same, testBit_and_not_one_shiftLeft _ _ _ hoff]
      have h1 : ¬ (x / 4096 % 32 = k % 32) := by omega
      have h2 : k % 32 < 32 := Nat.mod_lt _ (by decide)
      simp [h1, h2]
    · rw [Function.update_noteq hi]
  · intro i
    rw [set_frame_apply]
    by_cases hi : i = x / 4096 / 32
    · rw [hi, Function.update_same, Nat.one_shiftLeft]
      exact Nat.or_lt_two_pow (hw _) (Nat.pow_lt_pow_right (by decide) hoff)
    · rw [Function.update_noteq hi]
      exact hw i
  · intro i
    rw [clear_frame_apply]
    by_cases hi : i = x / 4096 / 32
    · rw [hi, Function.update_same]
      exact lt_of_le_of_lt Nat.and_le_left (hw _)
    · rw [Function.update_noteq hi]
      exact hw i
  · rw [set_frame_apply, set_frame_apply]
    funext i
    by_cases hi : i = x / 4096 / 32
    · rw [hi]
      simp only [Function.update_same]
      rw [Nat.or_assoc, Nat.or_self]
    · simp only [Function.update_noteq hi]
  · rw [clear_frame_apply, clear_frame_apply]
    funext i
    by_cases hi : i = x / 4096 / 32
    · rw [hi]
      simp only [Function.update_same]
      rw [Nat.and_assoc, Nat.and_self]
    · simp only [Function.update_noteq hi]
  · intro hclr
    rw [clear_frame_apply, set_frame_apply]
    funext i
    by_cases hi : i = x / 4096 / 32
    · rw [hi]
      simp only [Function.update_same]
      apply Nat.eq_of_testBit_eq
      intro j
      rw [testBit_and_not_one_shiftLeft _ _ _ hoff, testBit_or_one_shiftLeft]
      unfold bitset_bit INDEX_FROM_BIT OFFSET_FROM_BIT at hclr
      by_cases hj : x / 4096 % 32 = j
      · subst hj
        simp [hclr]
      · by_cases hj32 : j < 32
        · simp [hj, hj32]
        · have hhigh : (frames (x / 4096 / 32)).testBit j = false :=
            Nat.testBit_lt_two_pow (lt_of_lt_of_le (hw _)
              (Nat.pow_le_pow_right (by decide) (by omega)))
          simp [hj, hhigh]
    · simp only [Function.update_noteq hi]

/-- Witness for C20: the all-zero bitset and the frame address `0x5000`. -/
theorem set_clear_frame_one_bit_witness :
    WordsU32 (fun _ => 0) ∧
    (bitset_bit (set_frame (fun _ => 0) 0x5000) (0x5000 / 4096) = true ∧
      ∀ k, k ≠ 0x5000 / 4096 →
        bitset_bit (set_frame (fun _ => 0) 0x5000) k = bitset_bit (fun _ => 0) k) ∧
    (bitset_bit (clear_frame (fun _ => 0) 0x5000) (0x5000 / 4096) = false ∧
      ∀ k, k ≠ 0x5000 / 4096 →
        bitset_bit (clear_frame (fun _ => 0) 0x5000) k = bitset_bit (fun _ => 0) k) ∧
    (WordsU32 (set_frame (fun _ => 0) 0x5000) ∧ WordsU32 (clear_frame (fun _ => 0) 0x5000)) ∧
    set_frame (set_frame (fun _ => 0) 0x5000) 0x5000 = set_frame (fun _ => 0) 0x5000 ∧
    clear_frame (clear_frame (fun _ => 0) 0x5000) 0x5000 = clear_frame (fun _ => 0) 0x5000 ∧
    clear_frame (set_frame (fun _ => 0) 0x5000) 0x5000 = (fun _ => 0) := by
  have hw : WordsU32 (fun _ => 0) := fun _ => by norm_num
  obtain ⟨h1, h2, h3, h4, h5, h6⟩ := set_clear_frame_one_bit (fun _ => 0) 0x5000 hw
  exact ⟨hw, h1, h2, h3, h4, h5, h6 (by decide)⟩

/-! ## C21: frame `0` and repeated allocation -/

/-- C21 (as amended). With at most `2 ^ 20` frames, for every bitset of 32-bit
words in which bit `0` is already set and which has a clear bit among the
scanned words, and every unmapped entry, `alloc_frame_identity` returns and
leaves the entry with a non-zero frame field, so that a second
`alloc_frame_identity` on the same entry, whatever its flags, returns the
state unchanged: neither the entry nor the bitset changes. -/
theorem alloc_frame_identity_twice_is_noop (s : KernelState)
    (page isKernel isWriteable : Nat)
    (hw : WordsU32 s.frames) (hn : s.nframes ≤ 2 ^ 20)
    (hfree : (s.pages page).frame = 0) (hbit0 : bitset_bit s.frames 0 = true)
    (hclear : ∃ k, k < 32 * (s.nframes / 32) ∧ bitset_bit s.frames k = false) :
    ∃ s1, alloc_frame_identity s page isKernel isWriteable = Outcome.returned s1 ∧
      (s1.pages page).frame ≠ 0 ∧
      ∀ isKernel2 isWriteable2,
        alloc_frame_identity s1 page isKernel2 isWriteable2 = Outcome.returned s1 := by
  obtain ⟨f, hf, hret, hclr, _⟩ := first_frame_of_clear s.frames s.nframes hw hclear
  have h32 : 32 * (s.nframes / 32) ≤ s.nframes := Nat.mul_div_le _ _
  have hf20 : f < 2 ^ 20 := by omega
  rw [Nat.mod_eq_of_lt (by omega)] at hret
  have hf0 : f ≠ 0 := by
    intro h0
    rw [h0, hbit0] at hclr
    exact Bool.noConfusion hclr
  have hframe : ((Function.update s.pages page
      ({ present := 1,
         rw := if isWriteable ≠ 0 then 1 else 0,
         user := if isKernel ≠ 0 then 0 else 1,
         accessed := (s.pages page).accessed,
         dirty := (s.pages page).dirty,
         unused := (s.pages page).unused,
         frame := f } : page_t)) page).frame = f := by
    rw [Function.update_same]
  refine ⟨_, alloc_frame_identity_eq s page isKernel isWriteable f hf20 hret hfree, ?_, ?_⟩
  · dsimp only
    rw [hframe]
    exact hf0
  · intro isKernel2 isWriteable2
    unfold alloc_frame_identity
    dsimp only
    rw [if_pos (by rw [hframe]; exact hf0)]

/-- Witness for C21: 64 frames with only frame `0` in use, and the unmapped
entry at `0x1000`. -/
theorem alloc_frame_identity_twice_is_noop_witness :
    ∃ s1, alloc_frame_identity low_frame_used_state 0x1000 0 1 = Outcome.returned s1 ∧
      (s1.pages 0x1000).frame ≠ 0 ∧
      ∀ isKernel2 isWriteable2,
        alloc_frame_identity s1 0x1000 isKernel2 isWriteable2 = Outcome.returned s1 :=
  alloc_frame_identity_twice_is_noop low_frame_used_state 0x1000 0 1
    (by intro i; by_cases h : i = 0 <;> simp [low_frame_used_state, h]) (by decide) rfl
    (by decide) ⟨1, by decide, by decide⟩

/-- Counterexample to C21 as stated: from the all-zero bitset over 64 frames the
first `alloc_frame_identity` on the unmapped entry at `0x1000` returns with
frame field `0` (frame `0` is assigned, bit `0` set); a second call on the
same entry is not a no-op: it returns with frame field `1` and with bits `0`
and `1` both set. -/
theorem alloc_frame_identity_assigns_frame_zero :
    (∃ s1, alloc_frame_identity (initial_state 64) 0x1000 0 1 = Outcome.returned s1) ∧
    ((alloc_frame_identity (initial_state 64) 0x1000 0 1).state.pages 0x1000).frame = 0 ∧
    ((alloc_frame_identity (initial_state 64) 0x1000 0 1).state.pages 0x1000).present = 1 ∧
    (alloc_frame_identity (initial_state 64) 0x1000 0 1).state.frames 0 = 1 ∧
    (∃ s2, alloc_frame_identity (alloc_frame_identity (initial_state 64) 0x1000 0 1).state
      0x1000 0 1 = Outcome.returned s2) ∧
    ((alloc_frame_identity (alloc_frame_identity (initial_state 64) 0x1000 0 1).state
      0x1000 0 1).state.pages 0x1000).frame = 1 ∧
    (alloc_frame_identity (alloc_frame_identity (initial_state 64) 0x1000 0 1).state
      0x1000 0 1).state.frames 0 = 3 := by
  refine ⟨⟨_, rfl⟩, by decide, by decide, by decide, ⟨_, rfl⟩, by decide, by decide⟩

end Paging
